import Mathlib

/-!
Verification development for the jira-claude orchestration engine.

The definitions below are a shallow embedding of the TypeScript sources:

* `src/src/types.ts` / `src/src/services/state.ts` — task phases, the
  `TaskRow` schema, and the `StateManager` upsert/get/delete operations
  (SQLite rows become an association list keyed by the issue key; SQL
  `datetime('now')` becomes an explicit `now : Nat` timestamp parameter).
* `src/src/config.ts` (`WorkflowEngine`) — the engine handlers
  `handleNewTask`, `handlePlanFeedback`, `handleImplementation`,
  `handleTestFeedback`, `handleMerge`, `waitForStagingWorkflow`, and the
  reconciliation scan over plan-posted tasks.
* `src/src/services/claude.ts` (`ClaudeService`) — branch/worktree naming,
  `canAcceptTask`, the staging merge, and the `runClaudeSDK` accumulator.

External collaborators (the coding agent, the Jira and GitHub APIs, git)
are modelled as oracle inputs and as recorded `Effect`s: agent invocations
become `ClaudeResult` parameters, CI polling becomes a per-attempt oracle,
and outbound API calls (comments, assignments, transitions, PR operations)
are appended to an effect list in source order.  Long static human-facing
message bodies are abbreviated to their distinguishing prefixes; all
control flow, state writes and their order follow the source.
-/

/-- Task phases, from the `TaskPhase` union in `src/src/types.ts`. -/
inductive Phase where
  | planning
  | planPosted
  | approved
  | implementing
  | test
  | merging
  | failed
  deriving DecidableEq, Repr

/-- One row of the `tasks` table (`TaskRow` in `src/src/types.ts`).
Timestamps are `Nat` (milliseconds); the SQL `REAL` cost column is `ℚ`. -/
structure TaskRow where
  phase : Phase
  summary : String
  description : String
  plan : Option String
  branch_name : Option String
  pr_number : Option Nat
  pr_url : Option String
  worktree_path : Option String
  reviewer_notes : Option String
  session_id : Option String
  cost_usd : Option ℚ
  plan_posted_at : Option Nat
  creator_account_id : Option String
  last_feedback_check : Option Nat
  created_at : Nat
  updated_at : Nat
  deriving DecidableEq, Repr

/-- A partial update passed to `StateManager.upsertTask`: `none` means the
field is absent from the update object (JS `undefined`, column untouched);
`some v` means the field is supplied, where for nullable columns `v` is
itself an `Option` (`some none` sets SQL `NULL`). -/
structure TaskPatch where
  phase : Option Phase := none
  summary : Option String := none
  description : Option String := none
  plan : Option (Option String) := none
  branch_name : Option (Option String) := none
  pr_number : Option (Option Nat) := none
  pr_url : Option (Option String) := none
  worktree_path : Option (Option String) := none
  reviewer_notes : Option (Option String) := none
  session_id : Option (Option String) := none
  cost_usd : Option (Option ℚ) := none
  plan_posted_at : Option (Option Nat) := none
  creator_account_id : Option (Option String) := none
  last_feedback_check : Option (Option Nat) := none
  deriving DecidableEq, Repr

/-- The durable task table: one row per issue key (`state.ts` SQLite table). -/
abbrev Store := List (String × TaskRow)

/-- `StateManager.getTask`: first row whose key matches. -/
def getTask : Store → String → Option TaskRow
  | [], _ => none
  | (k, r) :: tl, key => if k = key then some r else getTask tl key

/-- The UPDATE arm of `StateManager.upsertTask`: only supplied fields
change and `updated_at` is always refreshed. -/
def applyPatch (r : TaskRow) (p : TaskPatch) (now : Nat) : TaskRow :=
  { phase := p.phase.getD r.phase
    summary := p.summary.getD r.summary
    description := p.description.getD r.description
    plan := p.plan.getD r.plan
    branch_name := p.branch_name.getD r.branch_name
    pr_number := p.pr_number.getD r.pr_number
    pr_url := p.pr_url.getD r.pr_url
    worktree_path := p.worktree_path.getD r.worktree_path
    reviewer_notes := p.reviewer_notes.getD r.reviewer_notes
    session_id := p.session_id.getD r.session_id
    cost_usd := p.cost_usd.getD r.cost_usd
    plan_posted_at := p.plan_posted_at.getD r.plan_posted_at
    creator_account_id := p.creator_account_id.getD r.creator_account_id
    last_feedback_check := p.last_feedback_check.getD r.last_feedback_check
    created_at := r.created_at
    updated_at := now }

/-- The INSERT arm of `StateManager.upsertTask`: missing columns take the
schema defaults (`''` for summary/description, `NULL` elsewhere,
`datetime('now')` for the timestamps).  The engine always supplies `phase`
on insert; a missing `phase` falls back to `planning` here in place of the
SQL NOT NULL error. -/
def freshRow (p : TaskPatch) (now : Nat) : TaskRow :=
  { phase := p.phase.getD .planning
    summary := p.summary.getD ""
    description := p.description.getD ""
    plan := p.plan.getD none
    branch_name := p.branch_name.getD none
    pr_number := p.pr_number.getD none
    pr_url := p.pr_url.getD none
    worktree_path := p.worktree_path.getD none
    reviewer_notes := p.reviewer_notes.getD none
    session_id := p.session_id.getD none
    cost_usd := p.cost_usd.getD none
    plan_posted_at := p.plan_posted_at.getD none
    creator_account_id := p.creator_account_id.getD none
    last_feedback_check := p.last_feedback_check.getD none
    created_at := now
    updated_at := now }

/-- The row-level effect of the SQL `UPDATE tasks SET ... WHERE issue_key = ?`:
every row whose key matches is merged with the patch. -/
def updateRows : Store → String → TaskPatch → Nat → Store
  | [], _, _, _ => []
  | (k, r) :: tl, key, p, now =>
      if k = key then (k, applyPatch r p now) :: updateRows tl key p now
      else (k, r) :: updateRows tl key p now

/-- `StateManager.upsertTask`: insert-or-merge keyed by the issue key. -/
def upsertTask (st : Store) (key : String) (p : TaskPatch) (now : Nat) : Store :=
  match getTask st key with
  | some _ => updateRows st key p now
  | none => st ++ [(key, freshRow p now)]

/-- `StateManager.deleteTask`. -/
def deleteTask (st : Store) (key : String) : Store :=
  st.filter fun kv => kv.1 ≠ key

/-- Number of rows stored under a key (the table's primary key makes this
0 or 1 in the real database). -/
def countKey (st : Store) (key : String) : Nat :=
  (st.filter fun kv => kv.1 = key).length

theorem getTask_updateRows_self (st : Store) (key : String) (p : TaskPatch) (now : Nat)
    (r : TaskRow) (h : getTask st key = some r) :
    getTask (updateRows st key p now) key = some (applyPatch r p now) := by
  induction st with
  | nil => simp [getTask] at h
  | cons hd tl ih =>
    obtain ⟨k, v⟩ := hd
    by_cases hk : k = key
    · subst hk
      rw [getTask, if_pos rfl] at h
      obtain rfl : v = r := by injection h
      rw [updateRows, if_pos rfl, getTask, if_pos rfl]
    · rw [getTask, if_neg hk] at h
      rw [updateRows, if_neg hk, getTask, if_neg hk]
      exact ih h

theorem getTask_upsert_self (st : Store) (key : String) (p : TaskPatch) (now : Nat)
    (r : TaskRow) (h : getTask st key = some r) :
    getTask (upsertTask st key p now) key = some (applyPatch r p now) := by
  simp only [upsertTask, h]
  exact getTask_updateRows_self st key p now r h

theorem getTask_append_none (st : Store) (key : String) (tl : Store)
    (h : getTask st key = none) :
    getTask (st ++ tl) key = getTask tl key := by
  induction st with
  | nil => simp [getTask]
  | cons hd t ih =>
    by_cases hk : hd.1 = key
    · obtain ⟨k, v⟩ := hd
      simp only at hk
      subst hk
      simp [getTask] at h
    · obtain ⟨k, v⟩ := hd
      simp only at hk
      simp [getTask, hk] at h ⊢
      exact ih h

theorem getTask_upsert_fresh (st : Store) (key : String) (p : TaskPatch) (now : Nat)
    (h : getTask st key = none) :
    getTask (upsertTask st key p now) key = some (freshRow p now) := by
  simp only [upsertTask, h]
  rw [getTask_append_none st key _ h]
  simp [getTask]

theorem countKey_eq_zero_of_getTask_none (st : Store) (key : String)
    (h : getTask st key = none) : countKey st key = 0 := by
  induction st with
  | nil => simp [countKey]
  | cons hd tl ih =>
    by_cases hk : hd.1 = key
    · obtain ⟨k, v⟩ := hd
      simp only at hk
      subst hk
      simp [getTask] at h
    · obtain ⟨k, v⟩ := hd
      simp only at hk
      simp [getTask, hk] at h
      simpa [countKey, List.filter, hk] using ih h

theorem countKey_upsert_fresh (st : Store) (key : String) (p : TaskPatch) (now : Nat)
    (h : getTask st key = none) :
    countKey (upsertTask st key p now) key = 1 := by
  have h0 := countKey_eq_zero_of_getTask_none st key h
  simp only [upsertTask, h, countKey] at h0 ⊢
  simp [List.filter_append, h0]

theorem countKey_updateRows (st : Store) (key : String) (p : TaskPatch) (now : Nat) :
    countKey (updateRows st key p now) key = countKey st key := by
  induction st with
  | nil => simp [countKey, updateRows]
  | cons hd tl ih =>
    obtain ⟨k, v⟩ := hd
    by_cases hk : k = key
    · subst hk
      rw [updateRows, if_pos rfl]
      simp only [countKey, List.filter] at ih ⊢
      simp [ih]
    · rw [updateRows, if_neg hk]
      simp only [countKey, List.filter] at ih ⊢
      simp [hk, ih]

/-! ## External-collaborator values and recorded effects -/

/-- Result of one coding-agent invocation (`ClaudeResult` in
`src/src/types.ts`). -/
structure ClaudeResult where
  success : Bool
  output : String
  sessionId : Option String
  costUsd : Option ℚ
  error : Option String
  deriving DecidableEq, Repr

/-- Rendering of a JS template interpolation of a possibly-undefined error
field (`undefined` prints as the string "undefined"). -/
def errText (res : ClaudeResult) : String :=
  res.error.getD "undefined"

/-- Outbound calls to the issue tracker, the code host and git, recorded
in the order the engine makes them. -/
inductive Effect where
  | comment (issueKey text : String)
  | assign (issueKey accountId : String)
  | transition (issueKey status : String)
  | addLabel (issueKey label : String)
  | removeLabel (issueKey label : String)
  | createPR (head base title : String)
  | mergePR (prNumber : Nat)
  | deleteRemoteBranch (ref : String)
  | worktreeAdd (issueKey path : String)
  | worktreeClear
  deriving DecidableEq, Repr

/-- The configuration slice the modelled handlers read (`loadConfig` in
`src/src/config.ts` plus the `github.actionsWorkflowFile` /
`github.actionsMaxRetries` and `claude.maxConcurrentTasks` settings read
by `waitForStagingWorkflow` and `ClaudeService`). -/
structure EngineCfg where
  claudeAccountId : Option String
  yourAccountId : Option String
  claudeLabel : String
  actionsWorkflowFile : Option String
  actionsMaxRetries : Nat
  defaultBranch : String
  maxConcurrentTasks : Nat
  worktreeBase : String
  deriving DecidableEq, Repr

/-- Mutable engine-plus-service state: the `WorkflowEngine.processing` set,
the SQLite store, and `ClaudeService.activeWorktrees`. -/
structure SysState where
  processing : List String
  store : Store
  worktrees : List (String × String)
  deriving DecidableEq, Repr

/-- The fields of a Jira issue the new-task handler reads. -/
structure IssueInfo where
  key : String
  summary : String
  description : String
  reporter : Option String
  deriving DecidableEq, Repr

/-! ## ClaudeService: branch naming and admission control
(`src/src/services/claude.ts`) -/

/-- JS string operations, modelled over the character list (JS strings
are character sequences; Lean's byte-position-based `String` methods are
avoided so that everything evaluates by reduction).  `jsDrop` is
`substring(n)`, `jsTake` is `substring(0, n)`, `jsToLower` is
`toLowerCase` (ASCII), `jsTrim` is `trim`, `jsStartsWith` is
`startsWith`. -/
def jsDrop (s : String) (n : Nat) : String := String.mk (s.data.drop n)

def jsTake (s : String) (n : Nat) : String := String.mk (s.data.take n)

def jsToLower (s : String) : String := String.mk (s.data.map Char.toLower)

def jsTrim (s : String) : String :=
  String.mk (((s.data.dropWhile Char.isWhitespace).reverse.dropWhile
    Char.isWhitespace).reverse)

def jsStartsWith (s pre : String) : Bool := pre.data.isPrefixOf s.data

/-- Characters kept by the slug regex `[^a-z0-9]` complement (the summary
is lower-cased first). -/
def isSlugChar (c : Char) : Bool :=
  (('a' ≤ c) && (c ≤ 'z')) || (('0' ≤ c) && (c ≤ '9'))

/-- `replace(/[^a-z0-9]+/g, '-')`: runs of non-slug characters collapse to
a single dash. -/
def slugCollapse (cs : List Char) : List Char :=
  (cs.foldl
    (fun (acc : List Char × Bool) c =>
      if isSlugChar c then (c :: acc.1, false)
      else if acc.2 then acc else ('-' :: acc.1, true))
    ([], false)).1.reverse

/-- `replace(/^-|-$/g, '')`: strip one leading and one trailing dash. -/
def stripEdgeDashes (cs : List Char) : List Char :=
  let cs1 := match cs with
    | '-' :: t => t
    | l => l
  match cs1.reverse with
  | '-' :: t => t.reverse
  | _ => cs1

/-- The branch slug built in `ClaudeService.createBranch`: lower-case,
collapse non-alphanumeric runs to dashes, strip edge dashes, take 40. -/
def slugify (summary : String) : String :=
  String.mk ((stripEdgeDashes (slugCollapse (summary.data.map Char.toLower))).take 40)

/-- `branchName.replace(/\//g, '-')`. -/
def replaceSlash (s : String) : String :=
  String.mk (s.data.map fun c => if c = '/' then '-' else c)

/-- Branch name derived in `ClaudeService.createBranch`. -/
def branchNameFor (issueKey summary : String) : String :=
  "claude/" ++ issueKey ++ "-" ++ slugify summary

/-- Worktree path derived in `ClaudeService.createBranch`
(`join(worktreeBase, branchName.replace(/\//g, '-'))`). -/
def worktreePathFor (cfg : EngineCfg) (branchName : String) : String :=
  cfg.worktreeBase ++ "/" ++ replaceSlash branchName

/-- `ClaudeService.canAcceptTask`: the global concurrent-task ceiling. -/
def canAcceptTask (cfg : EngineCfg) (worktrees : List (String × String)) : Bool :=
  worktrees.length < cfg.maxConcurrentTasks

/-- The conflict error thrown by `ClaudeService.mergeIntoStaging`. -/
def mergeConflictMsg (branchName : String) : String :=
  "Merge conflict when merging " ++ branchName ++ " into staging. " ++
    "Please resolve manually or simplify the changes."

/-! ## RecoveryLoop: `WorkflowEngine.waitForStagingWorkflow`
(`src/src/config.ts` lines 1154-1230) -/

/-- Per-attempt oracle for one iteration of the CI recovery loop: whether
a workflow run appeared, how it concluded, and how the agent fix cycle
went. -/
structure CIAttempt where
  runFound : Option Nat := none
  pollSuccess : Bool := false
  conclusion : String := ""
  fixResult : ClaudeResult := ⟨false, "", none, none, none⟩
  fixPushed : Bool := false
  fixPushReason : String := ""
  fixMergeConflict : Bool := false
  deriving Repr

/-- Result of the recovery loop: the thrown error if any, the number of
completed auto-fix cycles (log fetch + agent fix + push + re-merge), and
the comments posted along the way. -/
structure WaitResult where
  outcome : Except String Unit
  fixCycles : Nat
  effects : List Effect
  deriving Repr

def isErr : Except String Unit → Bool
  | .error _ => true
  | .ok _ => false

/-- Comment posted before each auto-fix cycle. -/
def autoFixMsg (attempt maxRetries : Nat) : String :=
  "🤖 GitHub Actions workflow failed. Claude is attempting an auto-fix (attempt " ++
    toString attempt ++ "/" ++ toString maxRetries ++ ")..."

/-- Body of the `for (attempt = 1; attempt <= totalAttempts; attempt++)`
loop of `waitForStagingWorkflow`; `fuel` is the number of iterations the
loop bound still allows, so the `fuel = 0` case is the loop falling
through (unreachable while `attempt ≤ maxRetries + 1`). -/
def stagingLoop (key branchName : String) (maxRetries : Nat) (o : Nat → CIAttempt) :
    Nat → Nat → Nat → WaitResult
  | _, 0, fc => ⟨.ok (), fc, []⟩
  | attempt, fuel + 1, fc =>
    let a := o attempt
    match a.runFound with
    | none => ⟨.ok (), fc, []⟩
    | some _ =>
      if a.pollSuccess = true then ⟨.ok (), fc, []⟩
      else if maxRetries + 1 ≤ attempt then
        ⟨.error ("GitHub Actions workflow failed after " ++ toString (maxRetries + 1) ++
          " attempt(s). Last conclusion: " ++ a.conclusion), fc, []⟩
      else
        let ce := Effect.comment key (autoFixMsg attempt maxRetries)
        if a.fixResult.success = false then
          ⟨.error ("Build fix failed: " ++ errText a.fixResult), fc, [ce]⟩
        else if a.fixPushed = false then
          ⟨.error ("Build fix produced no changes: " ++ a.fixPushReason), fc, [ce]⟩
        else if a.fixMergeConflict = true then
          ⟨.error (mergeConflictMsg branchName), fc, [ce]⟩
        else
          let r := stagingLoop key branchName maxRetries o (attempt + 1) fuel (fc + 1)
          ⟨r.outcome, r.fixCycles, ce :: r.effects⟩

/-- `WorkflowEngine.waitForStagingWorkflow`: returns immediately when no
CI workflow is configured, otherwise runs the bounded poll/fix loop with
`totalAttempts = maxRetries + 1`. -/
def waitForStagingWorkflow (cfg : EngineCfg) (o : Nat → CIAttempt)
    (key branchName : String) : WaitResult :=
  match cfg.actionsWorkflowFile with
  | none => ⟨.ok (), 0, []⟩
  | some _ => stagingLoop key branchName cfg.actionsMaxRetries o 1 (cfg.actionsMaxRetries + 1) 0

/-! ## WorkflowEngine handlers (`src/src/config.ts`, second revision:
lines 665-1392) -/

/-- Comment body posted with the plan (`handleNewTask`); the static
approval-instructions tail is abbreviated. -/
def planCommentText (plan : String) : String :=
  "🤖 **Implementation Plan:**\n\n" ++ plan

/-- The message of the error thrown when planning fails
(`result.error || 'Unknown error'`: JS falsy means null/undefined or
the empty string). -/
def planErrMsg (res : ClaudeResult) : String :=
  "Planning failed: " ++
    (match res.error with
     | some e => if e = "" then "Unknown error" else e
     | none => "Unknown error")

/-- `getAssignBackId`: the task creator if recorded, else the configured
fallback account; missing both means no reassignment call. -/
def assignBackEffects (cfg : EngineCfg) (creator : Option String) (key : String) :
    List Effect :=
  match creator.orElse (fun _ => cfg.yourAccountId) with
  | some a => [Effect.assign key a]
  | none => []

/-- The try-block body of `WorkflowEngine.handleNewTask` (transition the
issue, post progress, invoke the agent to plan, then either post the plan
and upsert the record or post the failure).  External Jira calls are
recorded as effects; the agent call is the `planRes` oracle. -/
def newTaskPatch (planRes : ClaudeResult) (issue : IssueInfo) (now : Nat) : TaskPatch :=
  { phase := some .planPosted
    plan := some (some planRes.output)
    summary := some issue.summary
    description := some issue.description
    creator_account_id := some issue.reporter
    session_id := some planRes.sessionId
    cost_usd := some planRes.costUsd
    plan_posted_at := some (some now) }

def newTaskBody (cfg : EngineCfg) (planRes : ClaudeResult) (now : Nat)
    (issue : IssueInfo) (s : SysState) : SysState × List Effect :=
  let pre := [Effect.transition issue.key "In Progress",
              Effect.comment issue.key
                "🤖 Claude is analyzing this task and creating an implementation plan..."]
  if planRes.success = true then
    ({ s with store := upsertTask s.store issue.key (newTaskPatch planRes issue now) now },
     pre ++ [Effect.comment issue.key (planCommentText planRes.output)] ++
       assignBackEffects cfg issue.reporter issue.key)
  else
    (s,
     pre ++ [Effect.comment issue.key
               ("🤖❌ Planning failed:\n\n" ++ planErrMsg planRes ++
                "\n\nPlease adjust the task description and retry.")] ++
       assignBackEffects cfg issue.reporter issue.key)

/-- `WorkflowEngine.handleNewTask` (config.ts lines 772-841): skip while
the key is being processed, skip when a record already exists in phase
`plan-posted`, otherwise run the planning body (the `processing` set is
restored by the `finally`, so it is net unchanged). -/
def handleNewTask (cfg : EngineCfg) (planRes : ClaudeResult) (now : Nat)
    (issue : IssueInfo) (s : SysState) : SysState × List Effect :=
  if s.processing.contains issue.key then (s, [])
  else
    match getTask s.store issue.key with
    | some existing =>
      if existing.phase = Phase.planPosted then (s, [])
      else newTaskBody cfg planRes now issue s
    | none => newTaskBody cfg planRes now issue s

/-- Oracle for one `handleImplementation` run: the implementation agent
call, the push outcome, the staging merge outcome, the CI loop attempts,
the smoke test, and the created pull request. -/
structure ImplOracle where
  implResult : ClaudeResult
  pushed : Bool := true
  pushReason : String := ""
  mergeConflict : Bool := false
  ci : Nat → CIAttempt := fun _ => {}
  smokeTested : Bool := false
  smokePassed : Bool := false
  smokeOutput : String := ""
  smokeReason : String := ""
  prNumber : Nat := 1
  prUrl : String := ""

/-- The staging smoke-test note (`handleImplementation` /
`handleTestFeedback`). -/
def smokeNoteOf (tested passed : Bool) (out reason : String) : String :=
  if tested then
    if passed then "✅ Staging smoke test passed"
    else "⚠️ Staging concerns: " ++ out
  else "ℹ️ Staging test skipped: " ++ reason

/-- Record fields written by `handleImplementation` on full success
(config.ts lines 997-1004). -/
def implSuccessPatch (o : ImplOracle) (row : TaskRow) (branchName : String) : TaskPatch :=
  { phase := some .test
    branch_name := some (some branchName)
    pr_number := some (some o.prNumber)
    pr_url := some (some o.prUrl)
    session_id := some o.implResult.sessionId
    cost_usd := some (some (row.cost_usd.getD 0 + o.implResult.costUsd.getD 0)) }

/-- The fallible part of `handleImplementation`'s try block after the
branch is created: agent implementation, push, staging merge, CI recovery
loop, then the PR/labels/comment/transition tail.  Returns the effects
emitted inside the block and either the thrown error or the success
patch. -/
def implTry (cfg : EngineCfg) (o : ImplOracle) (row : TaskRow)
    (key branchName : String) : List Effect × Except String TaskPatch :=
  if o.implResult.success = false then
    ([], .error ("Implementation failed: " ++ errText o.implResult ++ "\n\n" ++
       jsTake o.implResult.output 1000))
  else if o.pushed = false then
    ([], .error ("No changes to push: " ++ o.pushReason))
  else if o.mergeConflict = true then
    ([], .error (mergeConflictMsg branchName))
  else
    let w := waitForStagingWorkflow cfg o.ci key branchName
    match w.outcome with
    | .error e => (w.effects, .error e)
    | .ok _ =>
      let note := smokeNoteOf o.smokeTested o.smokePassed o.smokeOutput o.smokeReason
      (w.effects ++
        [Effect.createPR branchName cfg.defaultBranch (key ++ ": " ++ row.summary),
         Effect.addLabel key (cfg.claudeLabel ++ "-pr-pending"),
         Effect.comment key
           ("🤖 ✅ Implementation complete!\n\n**Branch:** " ++ branchName ++
            "\n**PR:** " ++ o.prUrl ++ "\n**PR #:** " ++ toString o.prNumber ++
            "\n\n" ++ note),
         Effect.transition key "Test"] ++
        assignBackEffects cfg row.creator_account_id key,
       .ok (implSuccessPatch o row branchName))

/-- `WorkflowEngine.handleImplementation` (config.ts lines 906-1025).
Re-entrancy guard, then record lookup (an absent record returns before
the try/finally, leaving the key in `processing` as in the source), then
branch/worktree creation (`ClaudeService.createBranch`), the fallible
chain, and on either outcome the `finally` cleanup: all worktrees removed
and the key released. -/
def handleImplementation (cfg : EngineCfg) (o : ImplOracle) (now : Nat)
    (key : String) (s : SysState) : SysState × List Effect :=
  if s.processing.contains key then (s, [])
  else
    let procAdded := key :: s.processing
    match getTask s.store key with
    | none => ({ s with processing := procAdded }, [])
    | some row =>
      let startEff := Effect.comment key "🤖 Plan approved — starting implementation..." ::
        (match cfg.claudeAccountId with
         | some a => [Effect.assign key a]
         | none => [])
      let bn := branchNameFor key row.summary
      let wp := worktreePathFor cfg bn
      let tryOut := implTry cfg o row key bn
      match tryOut.2 with
      | .ok patch =>
        ({ processing := procAdded.erase key
           store := upsertTask s.store key patch now
           worktrees := [] },
         startEff ++ [Effect.worktreeAdd key wp] ++ tryOut.1 ++ [Effect.worktreeClear])
      | .error e =>
        ({ processing := procAdded.erase key
           store := upsertTask s.store key { phase := some .failed } now
           worktrees := [] },
         startEff ++ [Effect.worktreeAdd key wp] ++ tryOut.1 ++
           [Effect.comment key ("🤖❌ Implementation error:\n\n" ++ e ++
              "\n\nPlease review and retry or handle manually.")] ++
           assignBackEffects cfg row.creator_account_id key ++ [Effect.worktreeClear])

/-- Record fields written by the approval arm of `handlePlanFeedback`
(config.ts lines 853-861): the reviewer notes are the comment text after
the 7-character keyword, whitespace-trimmed, with the empty string stored
as NULL (`reviewerNotes || null`). -/
def approvePatch (commentText : String) : TaskPatch :=
  { phase := some .approved
    reviewer_notes :=
      some (if jsTrim (jsDrop commentText 7) = "" then none
            else some (jsTrim (jsDrop commentText 7))) }

/-- Record fields written by the feedback arm of `handlePlanFeedback` when
re-planning succeeds (config.ts lines 888-894). -/
def replanPatch (replanRes : ClaudeResult) (row : TaskRow) (now : Nat) : TaskPatch :=
  { phase := some .planPosted
    plan := some (some replanRes.output)
    session_id := some replanRes.sessionId
    cost_usd := some (some (row.cost_usd.getD 0 + replanRes.costUsd.getD 0))
    plan_posted_at := some (some now) }

/-- `WorkflowEngine.handlePlanFeedback` (config.ts lines 845-902): a
comment whose lower-cased text starts with `approve` stores the trailing
text (`substring(7).trim()`, empty becomes NULL) as reviewer notes, sets
the phase to `approved` and drives `handleImplementation`; any other
comment is feedback and triggers a re-planning agent call that on success
replaces the plan and resets `plan_posted_at`. -/
def handlePlanFeedback (cfg : EngineCfg) (replanRes : ClaudeResult) (io : ImplOracle)
    (now : Nat) (key commentText : String) (s : SysState) : SysState × List Effect :=
  if s.processing.contains key then (s, [])
  else
    match getTask s.store key with
    | none => (s, [])
    | some row =>
      if jsStartsWith (jsToLower commentText) "approve" then
        handleImplementation cfg io now key
          { s with store := upsertTask s.store key (approvePatch commentText) now }
      else
        let pre := [Effect.comment key "🤖 Got it — adjusting the plan based on your feedback..."]
        if replanRes.success = true then
          ({ s with store := upsertTask s.store key (replanPatch replanRes row now) now },
           pre ++ [Effect.comment key ("🤖 **Updated Plan:**\n\n" ++ replanRes.output)])
        else
          (s, pre ++ [Effect.comment key ("🤖❌ Re-planning failed: " ++ errText replanRes)])

/-- Oracle for one `handleTestFeedback` run: the rework agent call (with
resumed session), the rework push, the staging merge, the CI loop, and
the smoke test. -/
structure ReworkOracle where
  reworkResult : ClaudeResult
  pushed : Bool := true
  mergeConflict : Bool := false
  ci : Nat → CIAttempt := fun _ => {}
  smokeTested : Bool := false
  smokePassed : Bool := false
  smokeOutput : String := ""
  smokeReason : String := ""

/-- Record fields written by `handleTestFeedback` after a successful
rework cycle (config.ts lines 1100-1104). -/
def reworkPatch (o : ReworkOracle) (row : TaskRow) (now : Nat) : TaskPatch :=
  { last_feedback_check := some (some now)
    session_id := some o.reworkResult.sessionId
    cost_usd := some (some (row.cost_usd.getD 0 + o.reworkResult.costUsd.getD 0)) }

/-- The catch arm of `handleTestFeedback`: report the error, reassign, and
leave the record untouched; the `finally` still clears the worktrees and
releases the key (config.ts lines 1107-1120). -/
def testFeedbackCatch (cfg : EngineCfg) (row : TaskRow) (key : String)
    (s : SysState) (pre : List Effect) (msg : String) : SysState × List Effect :=
  ({ s with worktrees := [] },
   pre ++ [Effect.comment key ("🤖❌ Rework failed:\n\n" ++ msg ++
      "\n\nPlease check manually or provide different feedback.")] ++
     assignBackEffects cfg row.creator_account_id key ++ [Effect.worktreeClear])

/-- `WorkflowEngine.handleTestFeedback` (config.ts lines 1029-1121): rework
against the existing branch; a rework with no changes only advances the
feedback watermark; a successful rework re-merges into staging, re-runs
the CI loop and accumulates the cost; every thrown error is caught
without any phase change. -/
def handleTestFeedback (cfg : EngineCfg) (o : ReworkOracle) (now : Nat)
    (key _feedback : String) (s : SysState) : SysState × List Effect :=
  if s.processing.contains key then (s, [])
  else
    match getTask s.store key with
    | none => (s, [])
    | some row =>
      match row.branch_name with
      | none => (s, [])
      | some bn =>
        let pre := Effect.comment key "🤖 Got it — reviewing your feedback and making fixes..." ::
          (match cfg.claudeAccountId with
           | some a => [Effect.assign key a]
           | none => [])
        if o.reworkResult.success = false then
          testFeedbackCatch cfg row key s pre
            ("Rework failed: " ++ errText o.reworkResult)
        else if o.pushed = false then
          ({ s with
              store := upsertTask s.store key { last_feedback_check := some (some now) } now
              worktrees := [] },
           pre ++ [Effect.comment key
              ("🤖 I reviewed the feedback but did not find any code changes needed. " ++
               "Could you provide more specific details about what needs to change?"),
             Effect.worktreeClear])
        else if o.mergeConflict = true then
          testFeedbackCatch cfg row key s pre (mergeConflictMsg bn)
        else
          let w := waitForStagingWorkflow cfg o.ci key bn
          match w.outcome with
          | .error e => testFeedbackCatch cfg row key s (pre ++ w.effects) e
          | .ok _ =>
            let note := smokeNoteOf o.smokeTested o.smokePassed o.smokeOutput o.smokeReason
            ({ s with
                store := upsertTask s.store key (reworkPatch o row now) now
                worktrees := [] },
             pre ++ w.effects ++
               [Effect.comment key ("🤖 ✅ Fixes pushed!\n\n**What changed:** " ++
                  (if o.reworkResult.output = "" then "See latest commits."
                   else jsTake o.reworkResult.output 1000) ++ "\n\n" ++ note)] ++
               assignBackEffects cfg row.creator_account_id key ++ [Effect.worktreeClear])

/-- Oracle for one `handleMerge` run: the PR-number fallback scan over
historical issue comments, the PR lookup, and whether the squash merge
call throws. -/
structure MergeOracle where
  fallbackPr : Option Nat := none
  prState : String := "open"
  prTitle : String := ""
  prHeadRef : String := ""
  mergeFails : Option String := none

/-- JS truthiness of `prNumber` (`if (!prNumber)`): 0 and null are falsy. -/
def jsTruthyNat : Option Nat → Option Nat
  | none => none
  | some 0 => none
  | some (n + 1) => some (n + 1)

/-- `WorkflowEngine.handleMerge` (config.ts lines 1234-1286): resolve the
PR number from the record or the comment-scan fallback, treat a
non-open PR as already satisfied (cleanup and delete the record), merge
with squash semantics on success (then delete branch and record), and on
a thrown merge error only post a comment — the record is not modified. -/
def handleMerge (cfg : EngineCfg) (o : MergeOracle) (key : String)
    (s : SysState) : SysState × List Effect :=
  let mergeKey := "merge-" ++ key
  if s.processing.contains mergeKey then (s, [])
  else
    let stored := jsTruthyNat ((getTask s.store key).bind (fun r => r.pr_number))
    match jsTruthyNat (stored.orElse (fun _ => o.fallbackPr)) with
    | none => (s, [])
    | some n =>
      if o.prState ≠ "open" then
        ({ s with store := deleteTask s.store key },
         [Effect.removeLabel key (cfg.claudeLabel ++ "-pr-pending")])
      else
        match o.mergeFails with
        | some msg =>
          (s, [Effect.comment key ("🤖❌ Auto-merge failed: " ++ msg ++
                 "\n\nPlease merge manually.")])
        | none =>
          ({ s with store := deleteTask s.store key },
           [Effect.mergePR n,
            Effect.removeLabel key (cfg.claudeLabel ++ "-pr-pending"),
            Effect.comment key ("🤖✅ PR #" ++ toString n ++ " merged to " ++
              cfg.defaultBranch ++ ". Production deploy triggered."),
            Effect.deleteRemoteBranch o.prHeadRef])

/-! ## Reconciliation: the plan-posted comment scan
(`WorkflowEngine.reconcile`, step 2, config.ts lines 1303-1327) -/

/-- The newest-first comment scan: skip bot comments (the `🤖` marker),
stop at the first comment at or before the watermark, otherwise hand the
first human comment to `handlePlanFeedback` and stop.  The input list is
the issue's comments already reversed to newest-first. -/
def planScanComments (cfg : EngineCfg) (replanRes : ClaudeResult) (io : ImplOracle)
    (now : Nat) (key : String) (watermark : Nat) :
    List (Nat × String) → SysState → SysState × List Effect
  | [], s => (s, [])
  | (t, body) :: rest, s =>
    let text := jsTrim body
    if jsStartsWith text "🤖" then
      planScanComments cfg replanRes io now key watermark rest s
    else if t ≤ watermark then (s, [])
    else handlePlanFeedback cfg replanRes io now key text s

/-- One plan-posted task's slice of the reconciliation pass: the task is
considered only while its phase is `plan-posted` (it came from
`getTasksByPhase('plan-posted')`) and not currently being processed; the
watermark is `plan_posted_at ?? updated_at`; comments arrive in
chronological order and are scanned newest-first. -/
def reconcilePlanPosted (cfg : EngineCfg) (replanRes : ClaudeResult) (io : ImplOracle)
    (now : Nat) (key : String) (comments : List (Nat × String))
    (s : SysState) : SysState × List Effect :=
  match getTask s.store key with
  | none => (s, [])
  | some row =>
    if row.phase = Phase.planPosted then
      if s.processing.contains key then (s, [])
      else
        planScanComments cfg replanRes io now key
          (row.plan_posted_at.getD row.updated_at) comments.reverse s
    else (s, [])

/-! ## WorkspaceManager: `ClaudeService.mergeIntoStaging`
(`src/src/services/claude.ts` lines 138-175) -/

/-- Abstract git state for the main repository: local branch tips, remote
branch tips, and the currently checked-out branch.  Commit tips are
abstract identifiers. -/
structure GitRepo where
  localB : List (String × Nat)
  remoteB : List (String × Nat)
  head : String
  deriving DecidableEq, Repr

def lookupB : List (String × Nat) → String → Option Nat
  | [], _ => none
  | (k, v) :: tl, key => if k = key then some v else lookupB tl key

def setB : List (String × Nat) → String → Nat → List (String × Nat)
  | [], key, v => [(key, v)]
  | (k, w) :: tl, key, v =>
      if k = key then (k, v) :: tl
      else (k, w) :: setB tl key v

/-- Result of one `mergeIntoStaging` call: the final git state, the final
value of `stagingLock` (the `finally` always resets it), and the thrown
conflict error if any. -/
structure MergeStagingResult where
  repo : GitRepo
  lockHeld : Bool
  error : Option String
  deriving DecidableEq, Repr

/-- `ClaudeService.mergeIntoStaging`, single-call view (the lock handoff
between concurrent calls is modelled separately below).  Steps follow the
source: fetch the feature branch; check out and pull staging (or create
it from the default branch when it does not exist remotely); merge
`origin/branchName` — on conflict abort the merge, check out the default
branch and throw; on success push staging and check out the default
branch.  The merge oracle says whether the merge conflicts and, if not,
the resulting staging tip. -/
def mergeIntoStaging (defaultBranch branchName : String) (conflict : Bool)
    (mergedTip : Nat) (g : GitRepo) : MergeStagingResult :=
  let g1 :=
    match lookupB g.remoteB "staging" with
    | some t => { g with head := "staging", localB := setB g.localB "staging" t }
    | none =>
      let defTip := (lookupB g.remoteB defaultBranch).getD
        ((lookupB g.localB defaultBranch).getD 0)
      { g with
          head := "staging"
          localB := setB (setB g.localB defaultBranch defTip) "staging" defTip }
  if conflict then
    { repo := { g1 with head := defaultBranch }
      lockHeld := false
      error := some (mergeConflictMsg branchName) }
  else
    let g2 := { g1 with localB := setB g1.localB "staging" mergedTip }
    { repo := { g2 with remoteB := setB g2.remoteB "staging" mergedTip, head := defaultBranch }
      lockHeld := false
      error := none }

theorem lookupB_setB_ne (l : List (String × Nat)) (key other : String) (v : Nat)
    (h : other ≠ key) : lookupB (setB l key v) other = lookupB l other := by
  induction l with
  | nil => simp [setB, lookupB, Ne.symm h]
  | cons hd tl ih =>
    obtain ⟨k, w⟩ := hd
    by_cases hk : k = key
    · subst hk
      rw [setB, if_pos rfl, lookupB, lookupB,
        if_neg (fun hh => h hh.symm), if_neg (fun hh => h hh.symm)]
    · rw [setB, if_neg hk, lookupB, lookupB]
      by_cases hko : k = other
      · rw [if_pos hko, if_pos hko]
      · rw [if_neg hko, if_neg hko]
        exact ih

/-! ## The staging lock: two concurrent merges
(`ClaudeService.stagingLock`, the spin-wait in `mergeIntoStaging`) -/

/-- State of one logical merge thread: spinning on the lock, inside the
critical section at step `pc`, or finished. -/
inductive TSt where
  | waiting
  | running (pc : Nat)
  | done
  deriving DecidableEq, Repr

/-- Two merge calls sharing `stagingLock`; the trace records which thread
performed each critical-section git step (0 or 1). -/
structure MSys where
  lock : Bool
  th0 : TSt
  th1 : TSt
  trace : List Nat
  deriving DecidableEq, Repr

/-- Interleaving semantics of the spin lock.  `n0`/`n1` are the numbers of
critical-section git steps of each call (success and conflict-abort paths
have different lengths, both covered).  The check of `stagingLock` and the
assignment `stagingLock = true` are not separated by an `await` in the
source, so acquisition is one atomic step; the critical-section steps may
be interleaved arbitrarily by the scheduler in this model (a superset of
the real event-loop schedules); the `finally` release is the last step. -/
inductive MStep (n0 n1 : Nat) : MSys → MSys → Prop where
  | acquire0 (m : MSys) (h : m.th0 = .waiting) (hl : m.lock = false) :
      MStep n0 n1 m { m with lock := true, th0 := .running 0 }
  | work0 (m : MSys) (pc : Nat) (h : m.th0 = .running pc) (hlt : pc < n0) :
      MStep n0 n1 m { m with th0 := .running (pc + 1), trace := m.trace ++ [0] }
  | release0 (m : MSys) (h : m.th0 = .running n0) :
      MStep n0 n1 m { m with lock := false, th0 := .done }
  | acquire1 (m : MSys) (h : m.th1 = .waiting) (hl : m.lock = false) :
      MStep n0 n1 m { m with lock := true, th1 := .running 0 }
  | work1 (m : MSys) (pc : Nat) (h : m.th1 = .running pc) (hlt : pc < n1) :
      MStep n0 n1 m { m with th1 := .running (pc + 1), trace := m.trace ++ [1] }
  | release1 (m : MSys) (h : m.th1 = .running n1) :
      MStep n0 n1 m { m with lock := false, th1 := .done }

/-- Both calls start spinning with the lock free and no steps taken. -/
def mInit : MSys := ⟨false, .waiting, .waiting, []⟩

def MReach (n0 n1 : Nat) : MSys → MSys → Prop :=
  Relation.ReflTransGen (MStep n0 n1)

/-- Shape of the trace as a function of the two thread states: each
thread's critical-section steps form one contiguous block. -/
def MShape (n0 n1 : Nat) (m : MSys) : Prop :=
  match m.th0, m.th1 with
  | .waiting, .waiting => m.trace = []
  | .running pc, .waiting => pc ≤ n0 ∧ m.trace = List.replicate pc 0
  | .waiting, .running pc => pc ≤ n1 ∧ m.trace = List.replicate pc 1
  | .done, .waiting => m.trace = List.replicate n0 0
  | .waiting, .done => m.trace = List.replicate n1 1
  | .done, .running pc =>
      pc ≤ n1 ∧ m.trace = List.replicate n0 0 ++ List.replicate pc 1
  | .running pc, .done =>
      pc ≤ n0 ∧ m.trace = List.replicate n1 1 ++ List.replicate pc 0
  | .done, .done =>
      m.trace = List.replicate n0 0 ++ List.replicate n1 1 ∨
        m.trace = List.replicate n1 1 ++ List.replicate n0 0
  | .running _, .running _ => False

/-- The lock is held exactly while one of the calls is in its critical
section, and the trace keeps the block shape. -/
def MInv (n0 n1 : Nat) (m : MSys) : Prop :=
  (m.lock = true ↔ ((∃ pc, m.th0 = .running pc) ∨ (∃ pc, m.th1 = .running pc))) ∧
    MShape n0 n1 m

/-! ## `ClaudeService.runClaudeSDK`
(`src/src/services/claude.ts` lines 475-551) -/

/-- A content block of an assistant message: a text block contributes its
text, any other block type contributes nothing. -/
inductive SDKBlock where
  | text (s : String)
  | other
  deriving DecidableEq, Repr

/-- Events of the streamed agent conversation: `system` (may carry a
session id), `assistant` (message content blocks), `result` (session id,
the already-coalesced `cost_usd ?? costUsd ?? null` value, and an optional
final text), or anything else. -/
inductive SDKEvent where
  | system (sessionId : Option String)
  | assistant (content : List SDKBlock)
  | result (sessionId : Option String) (costUsd : Option ℚ) (text : Option String)
  | other
  deriving DecidableEq, Repr

/-- The mutable accumulator of `runClaudeSDK`: `outputText`, `sessionId`,
`costUsd`. -/
structure SDKAcc where
  outputText : String
  sessionId : Option String
  costUsd : Option ℚ
  deriving DecidableEq, Repr

def initAcc : SDKAcc := ⟨"", none, none⟩

/-- Concatenation of the text blocks of one assistant turn. -/
def turnText (blocks : List SDKBlock) : String :=
  blocks.foldl
    (fun acc b => match b with
      | .text t => acc ++ t
      | .other => acc) ""

/-- One iteration of the `for await` loop over conversation events. -/
def stepEvent (a : SDKAcc) : SDKEvent → SDKAcc
  | .system sid => { a with sessionId := sid.orElse (fun _ => a.sessionId) }
  | .assistant content =>
    let t := turnText content
    if t ≠ "" then { a with outputText := t } else a
  | .result sid cost txt =>
    let a1 := { a with sessionId := sid.orElse (fun _ => a.sessionId), costUsd := cost }
    match txt with
    | some t => if t ≠ "" then { a1 with outputText := t } else a1
    | none => a1
  | .other => a

/-- `ClaudeService.runClaudeSDK`.  The conversation is the event list; an
internal exception is modelled as `some (k, msg)`: the stream raised
after `k` events were consumed.  The whole body is inside `try`/`catch`,
so completion returns `success := true` and an exception returns
`success := false` with the error message and the values accumulated so
far — the function itself never throws. -/
def runClaudeSDK (events : List SDKEvent) (exn : Option (Nat × String)) : ClaudeResult :=
  match exn with
  | none =>
    let a := events.foldl stepEvent initAcc
    { success := true, output := a.outputText, sessionId := a.sessionId
      costUsd := a.costUsd, error := none }
  | some (k, msg) =>
    let a := (events.take k).foldl stepEvent initAcc
    { success := false, output := a.outputText, sessionId := a.sessionId
      costUsd := a.costUsd, error := some msg }

/-! ## Lock-model invariant lemmas -/

theorem minv_init (n0 n1 : Nat) : MInv n0 n1 mInit := by
  constructor
  · constructor
    · intro h
      simp [mInit] at h
    · rintro (⟨pc, h⟩ | ⟨pc, h⟩) <;> simp [mInit] at h
  · simp [MShape, mInit]

theorem minv_step (n0 n1 : Nat) (m m' : MSys) (hstep : MStep n0 n1 m m')
    (hinv : MInv n0 n1 m) : MInv n0 n1 m' := by
  obtain ⟨hlock, hshape⟩ := hinv
  cases hstep with
  | acquire0 h hl =>
    have hnot1 : ∀ pc, m.th1 ≠ .running pc := by
      intro pc hc
      have hx := hlock.mpr (Or.inr ⟨pc, hc⟩)
      simp [hx] at hl
    refine ⟨⟨fun _ => Or.inl ⟨0, rfl⟩, fun _ => rfl⟩, ?_⟩
    cases h1 : m.th1 with
    | waiting =>
      simp only [MShape, h, h1] at hshape
      simp [MShape, h1, hshape]
    | running pc => exact absurd h1 (hnot1 pc)
    | done =>
      simp only [MShape, h, h1] at hshape
      simp [MShape, h1, hshape]
  | work0 pc h hlt =>
    have hl : m.lock = true := hlock.mpr (Or.inl ⟨pc, h⟩)
    refine ⟨⟨fun _ => Or.inl ⟨pc + 1, rfl⟩, fun _ => hl⟩, ?_⟩
    cases h1 : m.th1 with
    | waiting =>
      simp only [MShape, h, h1] at hshape
      obtain ⟨hle, htr⟩ := hshape
      simp only [MShape, h1]
      exact ⟨hlt, by simp [htr, List.replicate_succ']⟩
    | running pc1 =>
      simp only [MShape, h, h1] at hshape
    | done =>
      simp only [MShape, h, h1] at hshape
      obtain ⟨hle, htr⟩ := hshape
      simp only [MShape, h1]
      exact ⟨hlt, by simp [htr, List.replicate_succ', List.append_assoc]⟩
  | release0 h =>
    have hnot1 : ∀ pc1, m.th1 ≠ .running pc1 := by
      intro pc1 hc
      simp only [MShape, h, hc] at hshape
    refine ⟨⟨fun hc => absurd hc (by simp), ?_⟩, ?_⟩
    · rintro (⟨pc, hc⟩ | ⟨pc, hc⟩)
      · simp at hc
      · exact absurd hc (hnot1 pc)
    · cases h1 : m.th1 with
      | waiting =>
        simp only [MShape, h, h1] at hshape
        obtain ⟨hle, htr⟩ := hshape
        simp [MShape, h1, htr]
      | running pc1 => exact absurd h1 (hnot1 pc1)
      | done =>
        simp only [MShape, h, h1] at hshape
        obtain ⟨hle, htr⟩ := hshape
        simp only [MShape, h1]
        exact Or.inr htr
  | acquire1 h hl =>
    have hnot0 : ∀ pc, m.th0 ≠ .running pc := by
      intro pc hc
      have hx := hlock.mpr (Or.inl ⟨pc, hc⟩)
      simp [hx] at hl
    refine ⟨⟨fun _ => Or.inr ⟨0, rfl⟩, fun _ => rfl⟩, ?_⟩
    cases h0 : m.th0 with
    | waiting =>
      simp only [MShape, h, h0] at hshape
      simp [MShape, h0, hshape]
    | running pc => exact absurd h0 (hnot0 pc)
    | done =>
      simp only [MShape, h, h0] at hshape
      simp [MShape, h0, hshape]
  | work1 pc h hlt =>
    have hl : m.lock = true := hlock.mpr (Or.inr ⟨pc, h⟩)
    refine ⟨⟨fun _ => Or.inr ⟨pc + 1, rfl⟩, fun _ => hl⟩, ?_⟩
    cases h0 : m.th0 with
    | waiting =>
      simp only [MShape, h, h0] at hshape
      obtain ⟨hle, htr⟩ := hshape
      simp only [MShape, h0]
      exact ⟨hlt, by simp [htr, List.replicate_succ']⟩
    | running pc0 =>
      simp only [MShape, h, h0] at hshape
    | done =>
      simp only [MShape, h, h0] at hshape
      obtain ⟨hle, htr⟩ := hshape
      simp only [MShape, h0]
      exact ⟨hlt, by simp [htr, List.replicate_succ', List.append_assoc]⟩
  | release1 h =>
    have hnot0 : ∀ pc0, m.th0 ≠ .running pc0 := by
      intro pc0 hc
      simp only [MShape, hc, h] at hshape
    refine ⟨⟨fun hc => absurd hc (by simp), ?_⟩, ?_⟩
    · rintro (⟨pc, hc⟩ | ⟨pc, hc⟩)
      · exact absurd hc (hnot0 pc)
      · simp at hc
    · cases h0 : m.th0 with
      | waiting =>
        simp only [MShape, h, h0] at hshape
        obtain ⟨hle, htr⟩ := hshape
        simp [MShape, h0, htr]
      | running pc0 => exact absurd h0 (hnot0 pc0)
      | done =>
        simp only [MShape, h, h0] at hshape
        obtain ⟨hle, htr⟩ := hshape
        simp only [MShape, h0]
        exact Or.inl htr

theorem minv_reach (n0 n1 : Nat) (m : MSys) (h : MReach n0 n1 mInit m) :
    MInv n0 n1 m := by
  induction h with
  | refl => exact minv_init n0 n1
  | tail _ hstep ih => exact minv_step n0 n1 _ _ hstep ih

/-! ## Handler evaluation lemmas -/

def isErrP : Except String TaskPatch → Bool
  | .error _ => true
  | .ok _ => false

theorem handleImplementation_fail_state (cfg : EngineCfg) (o : ImplOracle) (now : Nat)
    (key : String) (s : SysState) (row : TaskRow)
    (hc : s.processing.contains key = false)
    (hg : getTask s.store key = some row)
    (htry : isErrP (implTry cfg o row key (branchNameFor key row.summary)).2 = true) :
    (handleImplementation cfg o now key s).1 =
      ⟨s.processing, upsertTask s.store key { phase := some Phase.failed } now, []⟩ := by
  cases h : (implTry cfg o row key (branchNameFor key row.summary)).2 with
  | ok p => rw [h] at htry; simp [isErrP] at htry
  | error e =>
    simp only [handleImplementation, hc, hg, Bool.false_eq_true, if_false]
    rw [h]
    simp [List.erase_cons_head]

theorem handleImplementation_ok_state (cfg : EngineCfg) (o : ImplOracle) (now : Nat)
    (key : String) (s : SysState) (row : TaskRow) (patch : TaskPatch)
    (hc : s.processing.contains key = false)
    (hg : getTask s.store key = some row)
    (htry : (implTry cfg o row key (branchNameFor key row.summary)).2 = .ok patch) :
    (handleImplementation cfg o now key s).1 =
      ⟨s.processing, upsertTask s.store key patch now, []⟩ := by
  simp only [handleImplementation, hc, Bool.false_eq_true, if_false, hg]
  rw [htry]
  simp [List.erase_cons_head]

theorem implTry_ok (cfg : EngineCfg) (o : ImplOracle) (row : TaskRow) (key bn : String)
    (hs : o.implResult.success = true) (hp : o.pushed = true)
    (hm : o.mergeConflict = false) (hw : cfg.actionsWorkflowFile = none) :
    (implTry cfg o row key bn).2 = .ok (implSuccessPatch o row bn) := by
  simp [implTry, hs, hp, hm, waitForStagingWorkflow, hw]

theorem implTry_fail_of_implResult (cfg : EngineCfg) (o : ImplOracle) (row : TaskRow)
    (key bn : String) (hs : o.implResult.success = false) :
    isErrP (implTry cfg o row key bn).2 = true := by
  simp [implTry, hs, isErrP]

/-! ## Recovery-loop counting lemmas -/

theorem stagingLoop_cycles_le (key bn : String) (mr : Nat) (o : Nat → CIAttempt) :
    ∀ fuel attempt fc, attempt + fuel = mr + 2 →
      (stagingLoop key bn mr o attempt fuel fc).fixCycles ≤ fc + (mr + 1 - attempt) := by
  intro fuel
  induction fuel with
  | zero =>
    intro attempt fc _
    simp only [stagingLoop]
    exact Nat.le_add_right fc _
  | succ f ih =>
    intro attempt fc hlink
    simp only [stagingLoop]
    cases hr : (o attempt).runFound with
    | none => exact Nat.le_add_right fc _
    | some rid =>
      by_cases hp : (o attempt).pollSuccess = true
      · simp only [hp, if_true]
        exact Nat.le_add_right fc _
      · simp only [hp, if_false]
        by_cases hm : mr + 1 ≤ attempt
        · simp only [hm, if_true]
          exact Nat.le_add_right fc _
        · simp only [hm, if_false]
          by_cases hf : (o attempt).fixResult.success = false
          · simp only [hf, if_true]
            exact Nat.le_add_right fc _
          · simp only [hf, if_false]
            by_cases hpu : (o attempt).fixPushed = false
            · simp only [hpu, if_true]
              exact Nat.le_add_right fc _
            · simp only [hpu, if_false]
              by_cases hmc : (o attempt).fixMergeConflict = true
              · simp only [hmc, if_true]
                exact Nat.le_add_right fc _
              · simp only [hmc, if_false]
                have hrec := ih (attempt + 1) (fc + 1) (by omega)
                simp only [Bool.false_eq_true, Bool.true_eq_false, if_false]
                omega

theorem stagingLoop_allfail (key bn : String) (mr : Nat) (o : Nat → CIAttempt)
    (hfail : ∀ n, (o n).runFound.isSome = true ∧ (o n).pollSuccess = false ∧
      (o n).fixResult.success = true ∧ (o n).fixPushed = true ∧
      (o n).fixMergeConflict = false) :
    ∀ fuel attempt fc, attempt + fuel = mr + 2 → 1 ≤ fuel →
      isErr (stagingLoop key bn mr o attempt fuel fc).outcome = true ∧
        (stagingLoop key bn mr o attempt fuel fc).fixCycles = fc + (mr + 1 - attempt) := by
  intro fuel
  induction fuel with
  | zero => intro attempt fc _ h1; omega
  | succ f ih =>
    intro attempt fc hlink _
    obtain ⟨hrf, hps, hfs, hfp, hfm⟩ := hfail attempt
    simp only [stagingLoop]
    cases hr : (o attempt).runFound with
    | none => rw [hr] at hrf; simp at hrf
    | some rid =>
      simp only [hps, Bool.false_eq_true, if_false]
      by_cases hm : mr + 1 ≤ attempt
      · simp only [hm, if_true]
        constructor
        · rfl
        · omega
      · simp only [hm, if_false, hfs, hfp, hfm, Bool.true_eq_false, Bool.false_eq_true,
          if_false]
        have hf1 : 1 ≤ f := by omega
        have hrec := ih (attempt + 1) (fc + 1) (by omega) hf1
        refine ⟨hrec.1, ?_⟩
        omega

/-! ## Claim theorems -/

/-- C3: if a CI workflow is configured and every triggered run completes
with a failing conclusion (and every agent fix cycle itself succeeds),
`waitForStagingWorkflow` performs exactly `actionsMaxRetries` auto-fix
cycles and then raises a permanent failure; and for every oracle, never
more than `actionsMaxRetries` cycles. -/
theorem claim_C3_bounded_retry :
    (∀ (cfg : EngineCfg) (o : Nat → CIAttempt) (key bn wf : String),
      cfg.actionsWorkflowFile = some wf →
      (∀ n, (o n).runFound.isSome = true ∧ (o n).pollSuccess = false ∧
        (o n).fixResult.success = true ∧ (o n).fixPushed = true ∧
        (o n).fixMergeConflict = false) →
      isErr (waitForStagingWorkflow cfg o key bn).outcome = true ∧
        (waitForStagingWorkflow cfg o key bn).fixCycles = cfg.actionsMaxRetries) ∧
    (∀ (cfg : EngineCfg) (o : Nat → CIAttempt) (key bn : String),
      (waitForStagingWorkflow cfg o key bn).fixCycles ≤ cfg.actionsMaxRetries) := by
  constructor
  · intro cfg o key bn wf hwf hfail
    have h := stagingLoop_allfail key bn cfg.actionsMaxRetries o hfail
      (cfg.actionsMaxRetries + 1) 1 0 (by omega) (by omega)
    simp only [waitForStagingWorkflow, hwf]
    refine ⟨h.1, ?_⟩
    rw [h.2]
    omega
  · intro cfg o key bn
    cases hwf : cfg.actionsWorkflowFile with
    | none => simp [waitForStagingWorkflow, hwf]
    | some wf =>
      simp only [waitForStagingWorkflow, hwf]
      have h := stagingLoop_cycles_le key bn cfg.actionsMaxRetries o
        (cfg.actionsMaxRetries + 1) 1 0 (by omega)
      omega

/-- Witness for C3 at a concrete configuration: two allowed retries, a
run that always appears and always fails, fixes that always succeed. -/
theorem claim_C3_bounded_retry_witness :
    isErr (waitForStagingWorkflow
      ⟨none, none, "claude-bot", some "deploy.yml", 2, "main", 3, "/ws"⟩
      (fun _ => ⟨some 7, false, "failure", ⟨true, "fixed", none, none, none⟩, true, "", false⟩)
      "PROJ-1" "claude/PROJ-1-x").outcome = true ∧
    (waitForStagingWorkflow
      ⟨none, none, "claude-bot", some "deploy.yml", 2, "main", 3, "/ws"⟩
      (fun _ => ⟨some 7, false, "failure", ⟨true, "fixed", none, none, none⟩, true, "", false⟩)
      "PROJ-1" "claude/PROJ-1-x").fixCycles = 2 := by
  exact claim_C3_bounded_retry.1
    ⟨none, none, "claude-bot", some "deploy.yml", 2, "main", 3, "/ws"⟩
    (fun _ => ⟨some 7, false, "failure", ⟨true, "fixed", none, none, none⟩, true, "", false⟩)
    "PROJ-1" "claude/PROJ-1-x" "deploy.yml" rfl
    (fun _ => ⟨rfl, rfl, rfl, rfl, rfl⟩)

/-- C10: `runClaudeSDK` is total at its interface — normal completion
returns `success = true` with no error; an internal exception after any
number of consumed events returns `success = false` together with the
error message and exactly the output, session id and cost accumulated up
to that point (the values of a normal run over the consumed prefix). -/
theorem claim_C10_runClaudeSDK_total (events : List SDKEvent) (k : Nat) (msg : String) :
    (runClaudeSDK events none).success = true ∧
    (runClaudeSDK events none).error = none ∧
    (runClaudeSDK events (some (k, msg))).success = false ∧
    (runClaudeSDK events (some (k, msg))).error = some msg ∧
    runClaudeSDK events (some (k, msg)) =
      { runClaudeSDK (events.take k) none with success := false, error := some msg } :=
  ⟨rfl, rfl, rfl, rfl, rfl⟩

/-- C9: at most one merge into staging is in flight at a time — in every
completed interleaving of two `mergeIntoStaging` calls under the
`stagingLock` spin lock, the critical-section steps of the two calls form
two contiguous blocks (the second acquirer only proceeds after the first
fully completes), and the lock is released at the end of every run. -/
theorem claim_C9_staging_mutex (n0 n1 : Nat) (m : MSys)
    (h : MReach n0 n1 mInit m) (h0 : m.th0 = .done) (h1 : m.th1 = .done) :
    (m.trace = List.replicate n0 0 ++ List.replicate n1 1 ∨
      m.trace = List.replicate n1 1 ++ List.replicate n0 0) ∧ m.lock = false := by
  obtain ⟨hlock, hshape⟩ := minv_reach n0 n1 m h
  simp only [MShape, h0, h1] at hshape
  refine ⟨hshape, ?_⟩
  cases hl : m.lock with
  | false => rfl
  | true =>
    rcases hlock.mp hl with ⟨pc, hc⟩ | ⟨pc, hc⟩
    · rw [h0] at hc
      exact absurd hc (by simp)
    · rw [h1] at hc
      exact absurd hc (by simp)

/-- Witness for C9: an explicit completed interleaving with one critical
step per call reaches a serialized trace with the lock free. -/
theorem claim_C9_staging_mutex_witness :
    (([0, 1] : List Nat) = List.replicate 1 0 ++ List.replicate 1 1 ∨
      ([0, 1] : List Nat) = List.replicate 1 1 ++ List.replicate 1 0) ∧ false = false := by
  have t1 : MReach 1 1 mInit ⟨true, .running 0, .waiting, []⟩ :=
    Relation.ReflTransGen.single (MStep.acquire0 mInit rfl rfl)
  have t2 : MReach 1 1 mInit ⟨true, .running 1, .waiting, [0]⟩ :=
    t1.tail (MStep.work0 ⟨true, .running 0, .waiting, []⟩ 0 rfl (by omega))
  have t3 : MReach 1 1 mInit ⟨false, .done, .waiting, [0]⟩ :=
    t2.tail (MStep.release0 ⟨true, .running 1, .waiting, [0]⟩ rfl)
  have t4 : MReach 1 1 mInit ⟨true, .done, .running 0, [0]⟩ :=
    t3.tail (MStep.acquire1 ⟨false, .done, .waiting, [0]⟩ rfl rfl)
  have t5 : MReach 1 1 mInit ⟨true, .done, .running 1, [0, 1]⟩ :=
    t4.tail (MStep.work1 ⟨true, .done, .running 0, [0]⟩ 0 rfl (by omega))
  have t6 : MReach 1 1 mInit ⟨false, .done, .done, [0, 1]⟩ :=
    t5.tail (MStep.release1 ⟨true, .done, .running 1, [0, 1]⟩ rfl)
  exact claim_C9_staging_mutex 1 1 ⟨false, .done, .done, [0, 1]⟩ t6 rfl rfl

/-- C4 (amended): a conflicting merge into staging aborts cleanly — the
conflict error is raised, the staging lock is released, nothing is pushed
so the remote staging tip and the feature branch refs are unchanged — but
the repository is left on the **default** branch, not the feature branch
(the feature branch only stays checked out inside its own worktree). -/
theorem claim_C4_conflict_abort (g : GitRepo) (defaultBranch branchName : String)
    (tip : Nat) (hb1 : branchName ≠ "staging") (hb2 : branchName ≠ defaultBranch) :
    (mergeIntoStaging defaultBranch branchName true tip g).error
        = some (mergeConflictMsg branchName) ∧
    (mergeIntoStaging defaultBranch branchName true tip g).lockHeld = false ∧
    lookupB (mergeIntoStaging defaultBranch branchName true tip g).repo.remoteB "staging"
        = lookupB g.remoteB "staging" ∧
    lookupB (mergeIntoStaging defaultBranch branchName true tip g).repo.localB branchName
        = lookupB g.localB branchName ∧
    lookupB (mergeIntoStaging defaultBranch branchName true tip g).repo.remoteB branchName
        = lookupB g.remoteB branchName ∧
    (mergeIntoStaging defaultBranch branchName true tip g).repo.head = defaultBranch := by
  cases hst : lookupB g.remoteB "staging" with
  | some t =>
    simp only [mergeIntoStaging, hst, if_true]
    refine ⟨trivial, trivial, trivial, ?_, trivial, trivial⟩
    exact lookupB_setB_ne g.localB "staging" branchName t hb1
  | none =>
    simp only [mergeIntoStaging, hst, if_true]
    refine ⟨trivial, trivial, trivial, ?_, trivial, trivial⟩
    rw [lookupB_setB_ne _ "staging" branchName _ hb1]
    exact lookupB_setB_ne g.localB defaultBranch branchName _ hb2

/-- Witness for C4 at a concrete repository. -/
theorem claim_C4_conflict_abort_witness :
    (mergeIntoStaging "main" "claude/PROJ-1-add-health-check" true 99
      ⟨[("main", 5)], [("main", 5), ("staging", 10), ("claude/PROJ-1-add-health-check", 7)],
        "main"⟩).error = some (mergeConflictMsg "claude/PROJ-1-add-health-check") ∧
    (mergeIntoStaging "main" "claude/PROJ-1-add-health-check" true 99
      ⟨[("main", 5)], [("main", 5), ("staging", 10), ("claude/PROJ-1-add-health-check", 7)],
        "main"⟩).lockHeld = false ∧
    lookupB (mergeIntoStaging "main" "claude/PROJ-1-add-health-check" true 99
      ⟨[("main", 5)], [("main", 5), ("staging", 10), ("claude/PROJ-1-add-health-check", 7)],
        "main"⟩).repo.remoteB "staging"
      = lookupB [("main", 5), ("staging", 10), ("claude/PROJ-1-add-health-check", 7)] "staging" ∧
    lookupB (mergeIntoStaging "main" "claude/PROJ-1-add-health-check" true 99
      ⟨[("main", 5)], [("main", 5), ("staging", 10), ("claude/PROJ-1-add-health-check", 7)],
        "main"⟩).repo.localB "claude/PROJ-1-add-health-check"
      = lookupB [("main", 5)] "claude/PROJ-1-add-health-check" ∧
    lookupB (mergeIntoStaging "main" "claude/PROJ-1-add-health-check" true 99
      ⟨[("main", 5)], [("main", 5), ("staging", 10), ("claude/PROJ-1-add-health-check", 7)],
        "main"⟩).repo.remoteB "claude/PROJ-1-add-health-check"
      = lookupB [("main", 5), ("staging", 10), ("claude/PROJ-1-add-health-check", 7)]
          "claude/PROJ-1-add-health-check" ∧
    (mergeIntoStaging "main" "claude/PROJ-1-add-health-check" true 99
      ⟨[("main", 5)], [("main", 5), ("staging", 10), ("claude/PROJ-1-add-health-check", 7)],
        "main"⟩).repo.head = "main" :=
  claim_C4_conflict_abort
    ⟨[("main", 5)], [("main", 5), ("staging", 10), ("claude/PROJ-1-add-health-check", 7)], "main"⟩
    "main" "claude/PROJ-1-add-health-check" 99 (by decide) (by decide)

/-- C4 counterexample to the claim as stated: after the conflict abort the
checked-out branch is the default branch, not the task's feature branch —
`claude/PROJ-1-add-health-check` is not "restored"/checked out. -/
theorem claim_C4_counterexample :
    (mergeIntoStaging "main" "claude/PROJ-1-add-health-check" true 99
      ⟨[("main", 5)], [("main", 5), ("staging", 10), ("claude/PROJ-1-add-health-check", 7)],
        "main"⟩).error.isSome = true ∧
    (mergeIntoStaging "main" "claude/PROJ-1-add-health-check" true 99
      ⟨[("main", 5)], [("main", 5), ("staging", 10), ("claude/PROJ-1-add-health-check", 7)],
        "main"⟩).repo.head ≠ "claude/PROJ-1-add-health-check" ∧
    (mergeIntoStaging "main" "claude/PROJ-1-add-health-check" true 99
      ⟨[("main", 5)], [("main", 5), ("staging", 10), ("claude/PROJ-1-add-health-check", 7)],
        "main"⟩).repo.head = "main" := by
  decide

theorem handleNewTask_fresh_success (cfg : EngineCfg) (planRes : ClaudeResult)
    (now : Nat) (issue : IssueInfo) (s : SysState)
    (hc : s.processing.contains issue.key = false)
    (hg : getTask s.store issue.key = none)
    (hs : planRes.success = true) :
    handleNewTask cfg planRes now issue s =
      ({ s with store := upsertTask s.store issue.key (newTaskPatch planRes issue now) now },
       [Effect.transition issue.key "In Progress",
        Effect.comment issue.key
          "🤖 Claude is analyzing this task and creating an implementation plan...",
        Effect.comment issue.key (planCommentText planRes.output)] ++
        assignBackEffects cfg issue.reporter issue.key) := by
  have hc2 : issue.key ∉ s.processing := by simpa using hc
  simp [handleNewTask, hc2, hg, newTaskBody, hs]

theorem handlePlanFeedback_approve (cfg : EngineCfg) (replanRes : ClaudeResult)
    (io : ImplOracle) (now : Nat) (key commentText : String) (s : SysState) (row : TaskRow)
    (hc : s.processing.contains key = false)
    (hg : getTask s.store key = some row)
    (ha : jsStartsWith (jsToLower commentText) "approve" = true) :
    handlePlanFeedback cfg replanRes io now key commentText s =
      handleImplementation cfg io now key
        { s with store := upsertTask s.store key (approvePatch commentText) now } := by
  have hc2 : key ∉ s.processing := by simpa using hc
  simp [handlePlanFeedback, hc2, hg, ha]

theorem handlePlanFeedback_feedback_success (cfg : EngineCfg) (replanRes : ClaudeResult)
    (io : ImplOracle) (now : Nat) (key commentText : String) (s : SysState) (row : TaskRow)
    (hc : s.processing.contains key = false)
    (hg : getTask s.store key = some row)
    (hna : jsStartsWith (jsToLower commentText) "approve" = false)
    (hs : replanRes.success = true) :
    handlePlanFeedback cfg replanRes io now key commentText s =
      ({ s with store := upsertTask s.store key (replanPatch replanRes row now) now },
       [Effect.comment key "🤖 Got it — adjusting the plan based on your feedback...",
        Effect.comment key ("🤖 **Updated Plan:**\n\n" ++ replanRes.output)]) := by
  have hc2 : key ∉ s.processing := by simpa using hc
  simp [handlePlanFeedback, hc2, hg, hna, hs]

theorem handlePlanFeedback_feedback_fail (cfg : EngineCfg) (replanRes : ClaudeResult)
    (io : ImplOracle) (now : Nat) (key commentText : String) (s : SysState) (row : TaskRow)
    (hc : s.processing.contains key = false)
    (hg : getTask s.store key = some row)
    (hna : jsStartsWith (jsToLower commentText) "approve" = false)
    (hs : replanRes.success = false) :
    (handlePlanFeedback cfg replanRes io now key commentText s).1 = s := by
  have hc2 : key ∉ s.processing := by simpa using hc
  simp [handlePlanFeedback, hc2, hg, hna, hs]

theorem handleTestFeedback_success_state (cfg : EngineCfg) (o : ReworkOracle) (now : Nat)
    (key feedback bn : String) (s : SysState) (row : TaskRow)
    (hc : s.processing.contains key = false)
    (hg : getTask s.store key = some row)
    (hb : row.branch_name = some bn)
    (hr : o.reworkResult.success = true)
    (hp : o.pushed = true)
    (hm : o.mergeConflict = false)
    (hw : cfg.actionsWorkflowFile = none) :
    (handleTestFeedback cfg o now key feedback s).1 =
      { s with store := upsertTask s.store key (reworkPatch o row now) now
               worktrees := [] } := by
  have hc2 : key ∉ s.processing := by simpa using hc
  simp [handleTestFeedback, hc2, hg, hb, hr, hp, hm, waitForStagingWorkflow, hw]

/-! ## Concrete fixtures -/

def cfgA : EngineCfg :=
  { claudeAccountId := some "claude-acct", yourAccountId := some "you-acct",
    claudeLabel := "claude-bot", actionsWorkflowFile := none, actionsMaxRetries := 2,
    defaultBranch := "main", maxConcurrentTasks := 1, worktreeBase := "/ws" }

def issueA : IssueInfo := ⟨"PROJ-1", "Add health check", "", none⟩

def rowTestA : TaskRow :=
  { phase := .test, summary := "Add health check", description := "",
    plan := some "old plan", branch_name := some "claude/PROJ-1-add-health-check",
    pr_number := some 42, pr_url := some "pr-url", worktree_path := none,
    reviewer_notes := none, session_id := some "sid", cost_usd := some 5,
    plan_posted_at := some 50, creator_account_id := none,
    last_feedback_check := none, created_at := 1, updated_at := 50 }

def rowFailedA : TaskRow := { rowTestA with phase := .failed }

def rowPlanPostedA : TaskRow :=
  { rowTestA with phase := .planPosted, branch_name := none, pr_number := none }

def planOkA : ClaudeResult := ⟨true, "new plan", some "s2", some (2 : ℚ), none⟩

def planFailA : ClaudeResult := ⟨false, "", none, none, some "agent crashed"⟩

def implFailO : ImplOracle := { implResult := planFailA }

def implOkO : ImplOracle :=
  { implResult := ⟨true, "done", some "s3", some (3 : ℚ), none⟩, prNumber := 42,
    prUrl := "pr-url" }

/-! ## C1 -/

/-- C1 (amended): the new-task handler is a no-op exactly when the stored
record's phase is `plan-posted` (for later phases such as `test` the
handler proceeds, see the counterexample); and calling the handler twice
in succession for the same eligible untracked task produces exactly one
TaskRecord and exactly one posted plan — the second call is a no-op. -/
theorem claim_C1_new_task_idempotence :
    (∀ (cfg : EngineCfg) (planRes : ClaudeResult) (now : Nat) (issue : IssueInfo)
        (s : SysState) (row : TaskRow),
      getTask s.store issue.key = some row → row.phase = Phase.planPosted →
      handleNewTask cfg planRes now issue s = (s, [])) ∧
    (∀ (cfg : EngineCfg) (planRes : ClaudeResult) (now : Nat) (issue : IssueInfo)
        (s s1 : SysState) (e1 : List Effect),
      s.processing.contains issue.key = false →
      getTask s.store issue.key = none →
      planRes.success = true →
      handleNewTask cfg planRes now issue s = (s1, e1) →
      countKey s1.store issue.key = 1 ∧
      e1 = [Effect.transition issue.key "In Progress",
            Effect.comment issue.key
              "🤖 Claude is analyzing this task and creating an implementation plan...",
            Effect.comment issue.key (planCommentText planRes.output)] ++
           assignBackEffects cfg issue.reporter issue.key ∧
      handleNewTask cfg planRes now issue s1 = (s1, [])) := by
  constructor
  · intro cfg planRes now issue s row hg hph
    by_cases hm : issue.key ∈ s.processing
    · simp [handleNewTask, hm]
    · simp [handleNewTask, hm, hg, hph]
  · intro cfg planRes now issue s s1 e1 hc hg hs heq
    rw [handleNewTask_fresh_success cfg planRes now issue s hc hg hs] at heq
    injection heq with h1 h2
    subst h1
    subst h2
    have hm : issue.key ∉ s.processing := by simpa using hc
    refine ⟨?_, rfl, ?_⟩
    · exact countKey_upsert_fresh s.store issue.key _ now hg
    · have hget2 : getTask (upsertTask s.store issue.key (newTaskPatch planRes issue now) now)
          issue.key = some (freshRow (newTaskPatch planRes issue now) now) :=
        getTask_upsert_fresh s.store issue.key _ now hg
      have hph2 : (freshRow (newTaskPatch planRes issue now) now).phase = Phase.planPosted := by
        simp [freshRow, newTaskPatch]
      simp [handleNewTask, hm, hget2, hph2]

/-- Witness for C1 at a concrete eligible task starting from an empty
store. -/
theorem claim_C1_new_task_idempotence_witness :
    countKey (handleNewTask cfgA planOkA 100 issueA ⟨[], [], []⟩).1.store issueA.key = 1 ∧
    (handleNewTask cfgA planOkA 100 issueA ⟨[], [], []⟩).2 =
      [Effect.transition issueA.key "In Progress",
       Effect.comment issueA.key
         "🤖 Claude is analyzing this task and creating an implementation plan...",
       Effect.comment issueA.key (planCommentText planOkA.output)] ++
      assignBackEffects cfgA issueA.reporter issueA.key ∧
    handleNewTask cfgA planOkA 100 issueA (handleNewTask cfgA planOkA 100 issueA ⟨[], [], []⟩).1 =
      ((handleNewTask cfgA planOkA 100 issueA ⟨[], [], []⟩).1, []) :=
  claim_C1_new_task_idempotence.2 cfgA planOkA 100 issueA ⟨[], [], []⟩ _ _ rfl rfl rfl rfl

/-- C1 counterexample to the claim as stated: for a record in phase
`test` (later than `plan-posted`) the handler is NOT a no-op — it posts a
new plan comment and rewrites the stored record. -/
theorem claim_C1_counterexample :
    (Effect.comment "PROJ-1" (planCommentText "new plan")) ∈
      (handleNewTask cfgA planOkA 100 issueA ⟨[], [("PROJ-1", rowTestA)], []⟩).2 ∧
    getTask (handleNewTask cfgA planOkA 100 issueA ⟨[], [("PROJ-1", rowTestA)], []⟩).1.store
      "PROJ-1" ≠ some rowTestA := by
  decide

/-! ## C2 -/

/-- C2 (amended): a comment whose lower-cased text starts with `approve`
is classified as approval: the phase is set to `approved` (the record then
moves on with the driven implementation — `failed` here since the witness
oracle fails it) and the stored reviewer notes are the comment text after
the first 7 characters, trimmed of surrounding whitespace only — so for
`approve, keep it minimal` the stored notes are `, keep it minimal`, with
the comma kept; any comment not starting with the keyword takes the
feedback path (plan replaced, phase stays `plan-posted`). -/
theorem claim_C2_approval_classification :
    (∀ (cfg : EngineCfg) (replanRes : ClaudeResult) (io : ImplOracle) (now : Nat)
        (key commentText : String) (s : SysState) (row : TaskRow),
      s.processing.contains key = false →
      getTask s.store key = some row →
      jsStartsWith (jsToLower commentText) "approve" = true →
      io.implResult.success = false →
      ∃ r', getTask (handlePlanFeedback cfg replanRes io now key commentText s).1.store key
              = some r' ∧
        r'.reviewer_notes =
          (if jsTrim (jsDrop commentText 7) = "" then none
           else some (jsTrim (jsDrop commentText 7))) ∧
        r'.phase = Phase.failed) ∧
    (jsTrim (jsDrop "approve, keep it minimal" 7) = ", keep it minimal") ∧
    (∀ (cfg : EngineCfg) (replanRes : ClaudeResult) (io : ImplOracle) (now : Nat)
        (key commentText : String) (s : SysState) (row : TaskRow),
      s.processing.contains key = false →
      getTask s.store key = some row →
      jsStartsWith (jsToLower commentText) "approve" = false →
      replanRes.success = true →
      ∃ r', getTask (handlePlanFeedback cfg replanRes io now key commentText s).1.store key
              = some r' ∧
        r'.phase = Phase.planPosted ∧ r'.plan = some replanRes.output) := by
  refine ⟨?_, by decide, ?_⟩
  · intro cfg replanRes io now key commentText s row hc hg ha hfail
    rw [handlePlanFeedback_approve cfg replanRes io now key commentText s row hc hg ha]
    have hg2 : getTask (upsertTask s.store key (approvePatch commentText) now) key
        = some (applyPatch row (approvePatch commentText) now) :=
      getTask_upsert_self s.store key _ now row hg
    have htry : isErrP (implTry cfg io (applyPatch row (approvePatch commentText) now) key
        (branchNameFor key (applyPatch row (approvePatch commentText) now).summary)).2 = true :=
      implTry_fail_of_implResult cfg io _ key _ hfail
    rw [handleImplementation_fail_state cfg io now key
      { s with store := upsertTask s.store key (approvePatch commentText) now }
      (applyPatch row (approvePatch commentText) now) hc hg2 htry]
    refine ⟨applyPatch (applyPatch row (approvePatch commentText) now)
      { phase := some Phase.failed } now, ?_, ?_, ?_⟩
    · exact getTask_upsert_self _ key _ now _ hg2
    · simp [applyPatch, approvePatch]
    · simp [applyPatch]
  · intro cfg replanRes io now key commentText s row hc hg hna hs
    rw [handlePlanFeedback_feedback_success cfg replanRes io now key commentText s row
      hc hg hna hs]
    refine ⟨applyPatch row (replanPatch replanRes row now) now, ?_, ?_, ?_⟩
    · exact getTask_upsert_self s.store key _ now row hg
    · simp [applyPatch, replanPatch]
    · simp [applyPatch, replanPatch]

/-- Witness for C2: the literal scenario comment `approve, keep it
minimal` on a plan-posted task. -/
theorem claim_C2_approval_classification_witness :
    ∃ r', getTask (handlePlanFeedback cfgA planFailA implFailO 100 "PROJ-1"
        "approve, keep it minimal" ⟨[], [("PROJ-1", rowPlanPostedA)], []⟩).1.store "PROJ-1"
          = some r' ∧
      r'.reviewer_notes =
        (if jsTrim (jsDrop "approve, keep it minimal" 7) = "" then none
         else some (jsTrim (jsDrop "approve, keep it minimal" 7))) ∧
      r'.phase = Phase.failed :=
  claim_C2_approval_classification.1 cfgA planFailA implFailO 100 "PROJ-1"
    "approve, keep it minimal" ⟨[], [("PROJ-1", rowPlanPostedA)], []⟩ rowPlanPostedA
    rfl rfl (by decide) rfl

/-- C2 counterexample to the claim as stated: for the comment
`approve, keep it minimal` the stored reviewer notes are
`, keep it minimal` (the comma after the keyword is kept), not
`keep it minimal`. -/
theorem claim_C2_counterexample :
    ((getTask (handlePlanFeedback cfgA planFailA implFailO 100 "PROJ-1"
        "approve, keep it minimal" ⟨[], [("PROJ-1", rowPlanPostedA)], []⟩).1.store
        "PROJ-1").bind (fun r => r.reviewer_notes)) = some ", keep it minimal" ∧
    (", keep it minimal" : String) ≠ "keep it minimal" := by
  decide

/-! ## C5 -/

/-- C5 (amended): failures in the implementation chain (any thrown error
in the try block) set the task's phase to `failed`; failures during
rework — all of them, not only merge conflicts — leave the stored record
untouched (so the task stays in `test`); and failures of the final
merge-to-production step also leave the record untouched, being reported
only as a comment (no `failed` phase is recorded there). -/
theorem claim_C5_failure_recording :
    (∀ (cfg : EngineCfg) (o : ImplOracle) (now : Nat) (key : String)
        (s : SysState) (row : TaskRow),
      s.processing.contains key = false →
      getTask s.store key = some row →
      isErrP (implTry cfg o row key (branchNameFor key row.summary)).2 = true →
      ∃ r', getTask (handleImplementation cfg o now key s).1.store key = some r' ∧
        r'.phase = Phase.failed) ∧
    (∀ (cfg : EngineCfg) (o : ReworkOracle) (now : Nat) (key fb : String) (s : SysState),
      o.reworkResult.success = false →
      (handleTestFeedback cfg o now key fb s).1.store = s.store) ∧
    (∀ (cfg : EngineCfg) (o : ReworkOracle) (now : Nat) (key fb : String) (s : SysState),
      o.reworkResult.success = true → o.pushed = true → o.mergeConflict = true →
      (handleTestFeedback cfg o now key fb s).1.store = s.store) ∧
    (∀ (cfg : EngineCfg) (o : MergeOracle) (key : String) (s : SysState) (msg : String),
      o.prState = "open" → o.mergeFails = some msg →
      (handleMerge cfg o key s).1.store = s.store) := by
  refine ⟨?_, ?_, ?_, ?_⟩
  · intro cfg o now key s row hc hg htry
    rw [handleImplementation_fail_state cfg o now key s row hc hg htry]
    refine ⟨applyPatch row { phase := some Phase.failed } now, ?_, ?_⟩
    · exact getTask_upsert_self s.store key _ now row hg
    · simp [applyPatch]
  · intro cfg o now key fb s hr
    by_cases hm : key ∈ s.processing
    · simp [handleTestFeedback, hm]
    · cases hg : getTask s.store key with
      | none => simp [handleTestFeedback, hm, hg]
      | some row =>
        cases hb : row.branch_name with
        | none => simp [handleTestFeedback, hm, hg, hb]
        | some bn => simp [handleTestFeedback, hm, hg, hb, hr, testFeedbackCatch]
  · intro cfg o now key fb s hr hp hmc
    by_cases hm : key ∈ s.processing
    · simp [handleTestFeedback, hm]
    · cases hg : getTask s.store key with
      | none => simp [handleTestFeedback, hm, hg]
      | some row =>
        cases hb : row.branch_name with
        | none => simp [handleTestFeedback, hm, hg, hb]
        | some bn => simp [handleTestFeedback, hm, hg, hb, hr, hp, hmc, testFeedbackCatch]
  · intro cfg o key s msg hst hmf
    by_cases hm : ("merge-" ++ key) ∈ s.processing
    · simp [handleMerge, hm]
    · cases hv : jsTruthyNat ((jsTruthyNat ((getTask s.store key).bind
          (fun r => r.pr_number))).orElse (fun _ => o.fallbackPr)) with
      | none => simp [handleMerge, hm, hv]
      | some n => simp [handleMerge, hm, hv, hst, hmf]

/-- Witness for C5 at concrete states: a failing implementation marks the
task `failed`; a failing rework and a failing production merge leave the
store unchanged. -/
theorem claim_C5_failure_recording_witness :
    (∃ r', getTask (handleImplementation cfgA implFailO 100 "PROJ-1"
        ⟨[], [("PROJ-1", rowPlanPostedA)], []⟩).1.store "PROJ-1" = some r' ∧
      r'.phase = Phase.failed) ∧
    (handleTestFeedback cfgA { reworkResult := planFailA } 100 "PROJ-1" "fix it"
        ⟨[], [("PROJ-1", rowTestA)], []⟩).1.store = [("PROJ-1", rowTestA)] ∧
    (handleMerge cfgA { prState := "open", mergeFails := some "HTTP 500" } "PROJ-1"
        ⟨[], [("PROJ-1", rowTestA)], []⟩).1.store = [("PROJ-1", rowTestA)] := by
  refine ⟨?_, ?_, ?_⟩
  · exact claim_C5_failure_recording.1 cfgA implFailO 100 "PROJ-1"
      ⟨[], [("PROJ-1", rowPlanPostedA)], []⟩ rowPlanPostedA rfl rfl (by decide)
  · exact claim_C5_failure_recording.2.1 cfgA { reworkResult := planFailA } 100 "PROJ-1"
      "fix it" ⟨[], [("PROJ-1", rowTestA)], []⟩ rfl
  · exact claim_C5_failure_recording.2.2.2 cfgA
      { prState := "open", mergeFails := some "HTTP 500" } "PROJ-1"
      ⟨[], [("PROJ-1", rowTestA)], []⟩ "HTTP 500" rfl rfl

/-- C5 counterexample to the claim as stated: a failure of the final
merge-to-production step does NOT set the phase to `failed` — the record
is unchanged and the task stays in `test`. -/
theorem claim_C5_counterexample :
    (handleMerge cfgA { prState := "open", mergeFails := some "HTTP 500" } "PROJ-1"
        ⟨[], [("PROJ-1", rowTestA)], []⟩).1.store = [("PROJ-1", rowTestA)] ∧
    rowTestA.phase = Phase.test ∧ Phase.test ≠ Phase.failed := by
  decide

/-! ## C6 -/

/-- C6: the concurrent-task ceiling is NOT enforced at workspace
creation: with `maxConcurrentTasks = 1` and one active worktree,
`canAcceptTask` is false, yet `handleImplementation` for a second task
still creates a new branch/worktree (the `worktreeAdd` git effect is
emitted) — `canAcceptTask` has no caller in the engine. -/
theorem claim_C6_ceiling_not_enforced :
    canAcceptTask cfgA [("PROJ-1", "/ws/claude-PROJ-1-a")] = false ∧
    Effect.worktreeAdd "PROJ-2" "/ws/claude-PROJ-2-add-health-check" ∈
      (handleImplementation cfgA implFailO 0 "PROJ-2"
        ⟨[], [("PROJ-2", { rowPlanPostedA with phase := .approved, summary := "Add health check" })],
          [("PROJ-1", "/ws/claude-PROJ-1-a")]⟩).2 := by
  decide

/-! ## C7 -/

/-- C7 (amended): the stored cost accrues — previous total plus the
invocation's cost, hence non-decreasing for non-negative invocation
costs — in the re-plan, implementation and rework upserts; the new-task
handler instead overwrites `cost_usd` with the planning invocation's cost
alone (correct for a previously untracked task, but able to decrease the
stored value when an already-tracked task re-enters the new-task path,
see the counterexample). -/
theorem claim_C7_cost_accrual :
    (∀ (cfg : EngineCfg) (replanRes : ClaudeResult) (io : ImplOracle) (now : Nat)
        (key commentText : String) (s : SysState) (row : TaskRow),
      s.processing.contains key = false →
      getTask s.store key = some row →
      jsStartsWith (jsToLower commentText) "approve" = false →
      replanRes.success = true →
      ∃ r', getTask (handlePlanFeedback cfg replanRes io now key commentText s).1.store key
              = some r' ∧
        r'.cost_usd = some (row.cost_usd.getD 0 + replanRes.costUsd.getD 0) ∧
        (0 ≤ replanRes.costUsd.getD 0 →
          row.cost_usd.getD 0 ≤ row.cost_usd.getD 0 + replanRes.costUsd.getD 0)) ∧
    (∀ (cfg : EngineCfg) (o : ImplOracle) (now : Nat) (key : String)
        (s : SysState) (row : TaskRow),
      s.processing.contains key = false →
      getTask s.store key = some row →
      o.implResult.success = true → o.pushed = true → o.mergeConflict = false →
      cfg.actionsWorkflowFile = none →
      ∃ r', getTask (handleImplementation cfg o now key s).1.store key = some r' ∧
        r'.cost_usd = some (row.cost_usd.getD 0 + o.implResult.costUsd.getD 0) ∧
        (0 ≤ o.implResult.costUsd.getD 0 →
          row.cost_usd.getD 0 ≤ row.cost_usd.getD 0 + o.implResult.costUsd.getD 0)) ∧
    (∀ (cfg : EngineCfg) (o : ReworkOracle) (now : Nat) (key fb bn : String)
        (s : SysState) (row : TaskRow),
      s.processing.contains key = false →
      getTask s.store key = some row →
      row.branch_name = some bn →
      o.reworkResult.success = true → o.pushed = true → o.mergeConflict = false →
      cfg.actionsWorkflowFile = none →
      ∃ r', getTask (handleTestFeedback cfg o now key fb s).1.store key = some r' ∧
        r'.cost_usd = some (row.cost_usd.getD 0 + o.reworkResult.costUsd.getD 0) ∧
        (0 ≤ o.reworkResult.costUsd.getD 0 →
          row.cost_usd.getD 0 ≤ row.cost_usd.getD 0 + o.reworkResult.costUsd.getD 0)) ∧
    (∀ (cfg : EngineCfg) (planRes : ClaudeResult) (now : Nat) (issue : IssueInfo)
        (s : SysState),
      s.processing.contains issue.key = false →
      getTask s.store issue.key = none →
      planRes.success = true →
      ∃ r', getTask (handleNewTask cfg planRes now issue s).1.store issue.key = some r' ∧
        r'.cost_usd = planRes.costUsd) := by
  refine ⟨?_, ?_, ?_, ?_⟩
  · intro cfg replanRes io now key commentText s row hc hg hna hs
    rw [handlePlanFeedback_feedback_success cfg replanRes io now key commentText s row
      hc hg hna hs]
    refine ⟨applyPatch row (replanPatch replanRes row now) now, ?_, ?_, ?_⟩
    · exact getTask_upsert_self s.store key _ now row hg
    · simp [applyPatch, replanPatch]
    · intro h
      exact le_add_of_nonneg_right h
  · intro cfg o now key s row hc hg hs hp hmc hw
    rw [handleImplementation_ok_state cfg o now key s row
      (implSuccessPatch o row (branchNameFor key row.summary)) hc hg
      (implTry_ok cfg o row key _ hs hp hmc hw)]
    refine ⟨applyPatch row (implSuccessPatch o row (branchNameFor key row.summary)) now,
      ?_, ?_, ?_⟩
    · exact getTask_upsert_self s.store key _ now row hg
    · simp [applyPatch, implSuccessPatch]
    · intro h
      exact le_add_of_nonneg_right h
  · intro cfg o now key fb bn s row hc hg hb hr hp hmc hw
    rw [handleTestFeedback_success_state cfg o now key fb bn s row hc hg hb hr hp hmc hw]
    refine ⟨applyPatch row (reworkPatch o row now) now, ?_, ?_, ?_⟩
    · exact getTask_upsert_self s.store key _ now row hg
    · simp [applyPatch, reworkPatch]
    · intro h
      exact le_add_of_nonneg_right h
  · intro cfg planRes now issue s hc hg hs
    rw [handleNewTask_fresh_success cfg planRes now issue s hc hg hs]
    refine ⟨freshRow (newTaskPatch planRes issue now) now, ?_, ?_⟩
    · exact getTask_upsert_fresh s.store issue.key _ now hg
    · simp [freshRow, newTaskPatch]

/-- Witness for C7: a re-planning call on a concrete plan-posted task
adds its cost to the stored total. -/
theorem claim_C7_cost_accrual_witness :
    ∃ r', getTask (handlePlanFeedback cfgA planOkA implFailO 100 "PROJ-1"
        "please also log errors" ⟨[], [("PROJ-1", rowPlanPostedA)], []⟩).1.store "PROJ-1"
          = some r' ∧
      r'.cost_usd = some (rowPlanPostedA.cost_usd.getD 0 + planOkA.costUsd.getD 0) ∧
      (0 ≤ planOkA.costUsd.getD 0 →
        rowPlanPostedA.cost_usd.getD 0
          ≤ rowPlanPostedA.cost_usd.getD 0 + planOkA.costUsd.getD 0) :=
  claim_C7_cost_accrual.1 cfgA planOkA implFailO 100 "PROJ-1" "please also log errors"
    ⟨[], [("PROJ-1", rowPlanPostedA)], []⟩ rowPlanPostedA rfl rfl (by decide) rfl

/-- C7 counterexample to the claim as stated: re-running the new-task
handler for a previously tracked task in phase `failed` with stored cost
5 overwrites the cost with the fresh planning cost 2 — the stored
value decreases. -/
theorem claim_C7_counterexample :
    ((getTask (handleNewTask cfgA planOkA 100 issueA
        ⟨[], [("PROJ-1", rowFailedA)], []⟩).1.store "PROJ-1").bind
      (fun r => r.cost_usd)) = some (2 : ℚ) ∧
    rowFailedA.cost_usd = some 5 ∧ ((2 : ℚ) < 5) := by
  decide

/-! ## C8 -/

/-- C8 (amended): processing a feedback comment resets `planPostedAt` to
the processing time — strictly greater than the previous watermark
whenever the clock advanced — but only when the re-planning agent call
succeeds (on failure nothing is written, see the counterexample); and an
approval comment transitions the task exactly once even when the
reconciliation pass runs twice: the second pass finds the phase already
advanced past `plan-posted` and does nothing. -/
theorem claim_C8_watermark_and_approval :
    (∀ (cfg : EngineCfg) (replanRes : ClaudeResult) (io : ImplOracle) (now : Nat)
        (key commentText : String) (s : SysState) (row : TaskRow) (w : Nat),
      s.processing.contains key = false →
      getTask s.store key = some row →
      jsStartsWith (jsToLower commentText) "approve" = false →
      replanRes.success = true →
      row.plan_posted_at = some w →
      w < now →
      ∃ r', getTask (handlePlanFeedback cfg replanRes io now key commentText s).1.store key
              = some r' ∧
        r'.plan_posted_at = some now ∧ w < now) ∧
    (∀ (cfg : EngineCfg) (replanRes : ClaudeResult) (io : ImplOracle) (now : Nat)
        (key : String) (s : SysState) (row : TaskRow) (t : Nat),
      getTask s.store key = some row →
      row.phase = Phase.planPosted →
      s.processing.contains key = false →
      row.plan_posted_at.getD row.updated_at < t →
      io.implResult.success = true → io.pushed = true → io.mergeConflict = false →
      cfg.actionsWorkflowFile = none →
      (∃ r', getTask (reconcilePlanPosted cfg replanRes io now key [(t, "approve")] s).1.store
          key = some r' ∧ r'.phase = Phase.test) ∧
      reconcilePlanPosted cfg replanRes io now key [(t, "approve")]
          (reconcilePlanPosted cfg replanRes io now key [(t, "approve")] s).1 =
        ((reconcilePlanPosted cfg replanRes io now key [(t, "approve")] s).1, [])) := by
  constructor
  · intro cfg replanRes io now key commentText s row w hc hg hna hs hw hlt
    rw [handlePlanFeedback_feedback_success cfg replanRes io now key commentText s row
      hc hg hna hs]
    refine ⟨applyPatch row (replanPatch replanRes row now) now, ?_, ?_, hlt⟩
    · exact getTask_upsert_self s.store key _ now row hg
    · simp [applyPatch, replanPatch]
  · intro cfg replanRes io now key s row t hg hph hc ht hs hp hmc hw
    have hm : key ∉ s.processing := by simpa using hc
    have hnle : ¬ (t ≤ row.plan_posted_at.getD row.updated_at) := Nat.not_le.mpr ht
    have hbot : jsStartsWith (jsTrim "approve") "🤖" = false := by decide
    have htrim : jsTrim "approve" = "approve" := by decide
    have hscan : reconcilePlanPosted cfg replanRes io now key [(t, "approve")] s
        = handlePlanFeedback cfg replanRes io now key (jsTrim "approve") s := by
      simp [reconcilePlanPosted, hg, hph, hm, planScanComments, hbot, hnle]
    rw [htrim] at hscan
    have ha : jsStartsWith (jsToLower "approve") "approve" = true := by decide
    rw [handlePlanFeedback_approve cfg replanRes io now key "approve" s row hc hg ha] at hscan
    have hg2 : getTask (upsertTask s.store key (approvePatch "approve") now) key
        = some (applyPatch row (approvePatch "approve") now) :=
      getTask_upsert_self s.store key _ now row hg
    have hok := handleImplementation_ok_state cfg io now key
      { s with store := upsertTask s.store key (approvePatch "approve") now }
      (applyPatch row (approvePatch "approve") now)
      (implSuccessPatch io (applyPatch row (approvePatch "approve") now)
        (branchNameFor key (applyPatch row (approvePatch "approve") now).summary))
      hc hg2
      (implTry_ok cfg io (applyPatch row (approvePatch "approve") now) key _ hs hp hmc hw)
    have hstate : (reconcilePlanPosted cfg replanRes io now key [(t, "approve")] s).1
        = ⟨s.processing,
           upsertTask (upsertTask s.store key (approvePatch "approve") now) key
             (implSuccessPatch io (applyPatch row (approvePatch "approve") now)
               (branchNameFor key (applyPatch row (approvePatch "approve") now).summary)) now,
           []⟩ := by
      rw [hscan]
      exact hok
    have hget3 : getTask (upsertTask (upsertTask s.store key (approvePatch "approve") now) key
        (implSuccessPatch io (applyPatch row (approvePatch "approve") now)
          (branchNameFor key (applyPatch row (approvePatch "approve") now).summary)) now) key
        = some (applyPatch (applyPatch row (approvePatch "approve") now)
            (implSuccessPatch io (applyPatch row (approvePatch "approve") now)
              (branchNameFor key (applyPatch row (approvePatch "approve") now).summary)) now) :=
      getTask_upsert_self _ key _ now _ hg2
    have hphase3 : (applyPatch (applyPatch row (approvePatch "approve") now)
        (implSuccessPatch io (applyPatch row (approvePatch "approve") now)
          (branchNameFor key (applyPatch row (approvePatch "approve") now).summary)) now).phase
        = Phase.test := by
      simp [applyPatch, implSuccessPatch]
    constructor
    · refine ⟨_, ?_, hphase3⟩
      rw [hstate]
      exact hget3
    · rw [hstate]
      simp [reconcilePlanPosted, hget3, hphase3]

/-- Witness for C8: the approval comment at time 60 on a task whose
watermark is 50 drives the task to `test` once; a second identical
reconciliation pass is a no-op. -/
theorem claim_C8_watermark_and_approval_witness :
    (∃ r', getTask (reconcilePlanPosted cfgA planFailA implOkO 100 "PROJ-1" [(60, "approve")]
        ⟨[], [("PROJ-1", rowPlanPostedA)], []⟩).1.store "PROJ-1" = some r' ∧
      r'.phase = Phase.test) ∧
    reconcilePlanPosted cfgA planFailA implOkO 100 "PROJ-1" [(60, "approve")]
        (reconcilePlanPosted cfgA planFailA implOkO 100 "PROJ-1" [(60, "approve")]
          ⟨[], [("PROJ-1", rowPlanPostedA)], []⟩).1 =
      ((reconcilePlanPosted cfgA planFailA implOkO 100 "PROJ-1" [(60, "approve")]
          ⟨[], [("PROJ-1", rowPlanPostedA)], []⟩).1, []) :=
  claim_C8_watermark_and_approval.2 cfgA planFailA implOkO 100 "PROJ-1"
    ⟨[], [("PROJ-1", rowPlanPostedA)], []⟩ rowPlanPostedA 60
    rfl rfl rfl (by decide) rfl rfl rfl rfl

/-- C8 counterexample to the claim as stated: when the re-planning agent
call fails, processing the feedback comment writes nothing — the stored
record and its `planPostedAt` watermark are unchanged, not strictly
greater. -/
theorem claim_C8_counterexample :
    (handlePlanFeedback cfgA planFailA implFailO 100 "PROJ-1" "please also log errors"
        ⟨[], [("PROJ-1", rowPlanPostedA)], []⟩).1.store = [("PROJ-1", rowPlanPostedA)] ∧
    rowPlanPostedA.plan_posted_at = some 50 := by
  decide
